import Mathlib

/-!
Verification development for the beam-centre refinement engine of
`dials/command_line/search_beam_position.py`.

The embedding follows the source closely:

* 3-vectors (`scitbx.matrix.col`) become `Vec3` over `ℝ`, with `dot`,
  `cross` and `normalize` translated component-wise.
* The mutable objects of the Python program (goniometers, whose fixed
  rotation is set in place by `set_fixed_rotation`, and reflection tables,
  whose stored fields are overwritten in place by
  `map_centroids_to_reciprocal_space` and friends) live in an explicit
  store `St`; Python references become natural-number indices into the
  store, so that shallow copies (`copy.copy`), deep copies
  (`copy.deepcopy`) and in-place mutation keep their object-identity
  semantics.
* External collaborators (dxtbx detectors, `rstbx` `Directional_FFT`, the
  DPS direction finder, the scitbx simplex optimizer, flex table
  operations) are opaque parameters bundled in `Ext`; only their
  interfaces, as used by the source, are modelled.
* Fallible code (`raise Sorry(...)`, list indexing, `flex.min_index` on an
  empty array) returns `Except Err`; exceptions do not roll back the
  store, so every stateful function returns its final store alongside the
  `Except` value, exactly like a Python exception propagating out of a
  half-executed loop.
-/

namespace SearchBeamPosition

/-- A 3-vector with real components, modelling `scitbx.matrix.col`. -/
structure Vec3 where
  x : ℝ
  y : ℝ
  z : ℝ

namespace Vec3

/-- Componentwise addition of 3-vectors. -/
def add (a b : Vec3) : Vec3 := ⟨a.x + b.x, a.y + b.y, a.z + b.z⟩

instance : Add Vec3 := ⟨add⟩

/-- Scalar multiplication `c * v` of a 3-vector. -/
def smul (c : ℝ) (v : Vec3) : Vec3 := ⟨c * v.x, c * v.y, c * v.z⟩

instance : SMul ℝ Vec3 := ⟨smul⟩

/-- The zero 3-vector. -/
def zero : Vec3 := ⟨0, 0, 0⟩

instance : Zero Vec3 := ⟨zero⟩

instance : Inhabited Vec3 := ⟨zero⟩

/-- Dot product, as in `matrix.col.dot`. -/
def dot (a b : Vec3) : ℝ := a.x * b.x + a.y * b.y + a.z * b.z

/-- Cross product, as in `matrix.col.cross`. -/
def cross (a b : Vec3) : Vec3 :=
  ⟨a.y * b.z - a.z * b.y, a.z * b.x - a.x * b.z, a.x * b.y - a.y * b.x⟩

/-- Squared Euclidean length of a 3-vector. -/
def normSq (v : Vec3) : ℝ := v.x * v.x + v.y * v.y + v.z * v.z

/-- Euclidean length, as in `matrix.col.length` / `flex.vec3_double.norms`. -/
noncomputable def norm3 (v : Vec3) : ℝ := Real.sqrt v.normSq

/-- Normalisation `v / |v|`, as in `matrix.col.normalize`.  (In Lean,
division by a zero length yields the zero vector; the Python code would
raise there, and theorems about callers carry nonzero-length
hypotheses.) -/
noncomputable def normalize3 (v : Vec3) : Vec3 := (1 / v.norm3) • v

end Vec3

/-- A 3x3 matrix, used only for a goniometer's fixed rotation
(`goniometer.get_fixed_rotation` / `set_fixed_rotation`). -/
structure Mat3 where
  a11 : ℝ
  a12 : ℝ
  a13 : ℝ
  a21 : ℝ
  a22 : ℝ
  a23 : ℝ
  a31 : ℝ
  a32 : ℝ
  a33 : ℝ

/-- The identity fixed rotation `(1, 0, 0, 0, 1, 0, 0, 0, 1)` that
`_get_origin_offset_score` installs on the goniometer. -/
def id3 : Mat3 := ⟨1, 0, 0, 0, 1, 0, 0, 0, 1⟩

/-- The quantities the source reads off an `rstbx` `Directional_FFT`
object: dominant spectral magnitude `kval()`, its bin `kmax()`, the
offsets `pmin` and `delta_p` of the transform, the length of
`fft_result`, and the phase `cmath.phase(ff[kmax])` of the dominant
coefficient. -/
structure FFTOut where
  kval : ℝ
  kmax : ℕ
  pmin : ℝ
  deltaP : ℝ
  fftSize : ℕ
  phaseAtKmax : ℝ

/-- Terminal failures of the engine.  `noValidScores` is
`Sorry("No valid scores")` (the spec's `InsufficientSignal`),
`noSolutions` is `Sorry("No solutions found")`, `beamMismatch` is
`Sorry("input beam does not intersect detector")`, `indexError` is a
Python `IndexError` from list indexing, `emptySelection` is the error
`flex.min_index` raises on an empty array, and `assertionError` covers
the `assert` statements. -/
inductive Err where
  | noValidScores
  | noSolutions
  | beamMismatch
  | indexError
  | emptySelection
  | assertionError
deriving Repr, DecidableEq

/-- The mutable heap: goniometer fixed rotations and reflection-table
payloads, addressed by allocation index.  `gonioNext` / `tableNext` are
the next fresh references. -/
structure St (P : Type) where
  gonios : ℕ → Mat3
  gonioNext : ℕ
  tables : ℕ → P
  tableNext : ℕ

namespace St

variable {P : Type}

/-- In-place update of a goniometer's fixed rotation
(`set_fixed_rotation`). -/
def writeGonio (σ : St P) (r : ℕ) (m : Mat3) : St P :=
  { σ with gonios := Function.update σ.gonios r m }

/-- In-place update of a reflection table's payload. -/
def writeTable (σ : St P) (r : ℕ) (p : P) : St P :=
  { σ with tables := Function.update σ.tables r p }

/-- Allocation of a fresh goniometer object (used by `copy.deepcopy` of an
experiment). -/
def allocGonio (σ : St P) (m : Mat3) : ℕ × St P :=
  (σ.gonioNext,
   { σ with gonios := Function.update σ.gonios σ.gonioNext m,
            gonioNext := σ.gonioNext + 1 })

/-- Allocation of a fresh reflection table (used by `copy.deepcopy(refl)`
and by `refl.select(...)`, both of which produce new table objects). -/
def allocTable (σ : St P) (p : P) : ℕ × St P :=
  (σ.tableNext,
   { σ with tables := Function.update σ.tables σ.tableNext p,
            tableNext := σ.tableNext + 1 })

end St

/-- An experiment as the engine uses it: a detector (treated as an
immutable value, since the source only ever rebinds the `detector`
attribute, never mutates a detector in place), the beam vector `s0`, and
a reference to the goniometer object (mutable, shared under
`copy.copy`). -/
structure Experiment (D : Type) where
  detector : D
  s0 : Vec3
  gonioRef : ℕ

/-- Interfaces of the external collaborators, exactly as the source
invokes them.  `D` is the detector type, `P` the reflection-table payload
type, `R` the type of the `rlp` column viewed as reciprocal-space
vectors. -/
structure Ext (D P R : Type) where
  /-- `dps_extended.get_new_detector(detector, offset)`. -/
  getNewDetector : D → Vec3 → D
  /-- `detector[0].get_pixel_size()[0]`. -/
  pixelSize0 : D → ℝ
  /-- the in-place column write `refl["imageset_id"] = flex.int(len(refl), 0)`. -/
  setImagesetId : P → P
  /-- the in-place conversion `refl.centroid_px_to_mm([expt])`. -/
  pxToMm : D → P → P
  /-- the in-place recomputation `refl.map_centroids_to_reciprocal_space([expt])`,
  which depends on the experiment's detector, beam and goniometer fixed
  rotation and overwrites the stored `rlp` column. -/
  mapRlp : D → Vec3 → Mat3 → P → P
  /-- reading the `rlp` column, `spots_mm["rlp"]`. -/
  rlpOf : P → R
  /-- `reciprocal_space_vectors.size()`. -/
  rlpSize : R → ℕ
  /-- the `Directional_FFT(angle=Direction(solution), xyzdata=..., granularity=5.0,
  amax=..., F0_cutoff=11)` black box together with its accessors. -/
  dirFFT : Vec3 → R → ℝ → FFTOut
  /-- the d_min filter `refl.select(1 / refl["rlp"].norms() > d_min)`
  (returns a new table). -/
  dminSelect : ℝ → P → P
  /-- `find_max_cell(refl, max_cell_multiplier=1.3, step_size=45).max_cell`. -/
  findMaxCell : P → ℝ
  /-- `refl.size()`. -/
  tableSize : P → ℕ
  /-- the random subsampling `refl.select(flex.random_permutation(refl.size())[:n])`
  (returns a new table; deterministic given the process-wide seed). -/
  subsample : ℕ → P → P
  /-- `flex.median`. -/
  median : List ℝ → ℝ
  /-- `detector.get_panel_intersection(beam.get_s0()) != -1`. -/
  beamIntersects : D → Vec3 → Bool
  /-- the DPS direction finder: `DPS.index(...)` followed by
  `DPS.getSolutions()` (as `dvec` unit vectors) and `DPS.amax`, given the
  experiment geometry, the mm spots and the shared max cell. -/
  finder : D → Vec3 → P → ℝ → List Vec3 × ℝ
  /-- the sequence of trial vectors at which the scitbx `simplex_opt` black
  box evaluates its evaluator's `target` before converging. -/
  simplexTrace : List (ℝ × ℝ)
  /-- the 2-vector `optimizer.get_solution()` the simplex black box
  returns. -/
  simplexSol : ℝ × ℝ

variable {D P R : Type}

/-- Translation of `_sum_score_detail`: for each of the top
`min(len(solutions), 20)` DPS solutions, query the directional FFT; a
solution whose dominant magnitude `kval` strictly exceeds a quarter of
the reciprocal-space vector count contributes
`cos(Tkmax + 2*pi*kmax*kbeam / (2*len(ff) - 1))` with
`kbeam = (-pmin)/delta_p + 0.5`; the result is the sum of the
contributions. -/
noncomputable def sumScoreDetail (ext : Ext D P R) (rsv : R)
    (solutions : List Vec3) (amax : ℝ) : ℝ :=
  let nh := min solutions.length 20
  (List.range nh).foldl
    (fun acc t =>
      let dfft := ext.dirFFT (solutions.getD t 0) rsv amax
      let kvalCutoff := (ext.rlpSize rsv : ℝ) / 4
      if kvalCutoff < dfft.kval then
        let kbeam := (-dfft.pmin) / dfft.deltaP + 1 / 2
        let Tkmax := dfft.phaseAtKmax
        let backmax := Real.cos
          (Tkmax + 2 * Real.pi * (dfft.kmax : ℝ) * kbeam /
            (2 * (dfft.fftSize : ℝ) - 1))
        acc + backmax
      else acc)
    0

/-- The per-solution term of `_sum_score_detail`, written as a function of
the FFT readout: `cos(Tkmax + 2*pi*kmax*kbeam / (2*len(ff) - 1))`. -/
noncomputable def fftContribution (dfft : FFTOut) : ℝ :=
  Real.cos (dfft.phaseAtKmax +
    2 * Real.pi * (dfft.kmax : ℝ) * ((-dfft.pmin) / dfft.deltaP + 1 / 2) /
      (2 * (dfft.fftSize : ℝ) - 1))


/-- Translation of `_get_origin_offset_score`.  Line by line:
`trial_detector = dps_extended.get_new_detector(experiment.detector, trial_origin_offset)`;
`experiment = copy.copy(experiment)` (a shallow copy: the new experiment
value shares the goniometer reference);
`experiment.detector = trial_detector` (rebinding on the copy only);
`experiment.goniometer.set_fixed_rotation((1, 0, 0, 0, 1, 0, 0, 0, 1))`
(in place, on the goniometer shared with the caller's experiment);
`spots_mm.map_centroids_to_reciprocal_space([experiment])` (in place, on
the caller's reflection table, under the trial detector and the
just-installed identity rotation);
`return _sum_score_detail(spots_mm["rlp"], solutions, amax=amax)`. -/
noncomputable def getOriginOffsetScore (ext : Ext D P R) (trialOriginOffset : Vec3)
    (solutions : List Vec3) (amax : ℝ) (spotsMm : ℕ) (experiment : Experiment D)
    (σ : St P) : ℝ × St P :=
  let trialDetector := ext.getNewDetector experiment.detector trialOriginOffset
  let e1 : Experiment D := { experiment with detector := trialDetector }
  let σ1 := σ.writeGonio e1.gonioRef id3
  let p1 := ext.mapRlp e1.detector e1.s0 (σ1.gonios e1.gonioRef) (σ1.tables spotsMm)
  let σ2 := σ1.writeTable spotsMm p1
  (sumScoreDetail ext (ext.rlpOf p1) solutions amax, σ2)

/-- The indexed accumulation shared by `get_experiment_score_for_coord`
(`sum(_get_origin_offset_score(new_origin_offset, solution_lists[i],
amax_lists[i], reflection_lists[i], experiment) for i, experiment in
enumerate(experiments))`) and by `simplex_minimizer.target`'s loop: the
experiment list is enumerated in full, and `solution_lists[i]`,
`amax_lists[i]`, `reflection_lists[i]` are plain list indexings that
raise `IndexError` when `i` is out of range. -/
noncomputable def sumScoresGo (ext : Ext D P R) (tRefs : List ℕ)
    (sols : List (List Vec3)) (amaxs : List ℝ) (off : Vec3) :
    List (Experiment D) → ℕ → ℝ → St P → (Except Err ℝ) × St P
  | [], _, acc, σ => (.ok acc, σ)
  | e :: rest, i, acc, σ =>
    match sols.get? i, amaxs.get? i, tRefs.get? i with
    | some sl, some am, some tr =>
      let res := getOriginOffsetScore ext off sl am tr e σ
      sumScoresGo ext tRefs sols amaxs off rest (i + 1) (acc + res.1) res.2
    | _, _, _ => (.error .indexError, σ)

/-- The aggregate score of one trial origin offset over all experiments. -/
noncomputable def sumScores (ext : Ext D P R) (exps : List (Experiment D))
    (tRefs : List ℕ) (sols : List (List Vec3)) (amaxs : List ℝ) (off : Vec3)
    (σ : St P) : (Except Err ℝ) × St P :=
  sumScoresGo ext tRefs sols amaxs off exps 0 0 σ

/-- The grid coordinates `[(x, y) for y in range(-grid, grid + 1) for x in
range(-grid, grid + 1)]`, in the order the `scores` array is filled. -/
def gridCoords (grid : ℕ) : List (ℤ × ℤ) :=
  List.flatten ((List.range (2 * grid + 1)).map (fun yi =>
    (List.range (2 * grid + 1)).map (fun xi =>
      ((xi : ℤ) - (grid : ℤ), (yi : ℤ) - (grid : ℤ)))))

/-- `get_experiment_score_for_coord(x, y)`: the aggregate score at the
offset `x * plot_px_sz * beamr1 + y * plot_px_sz * beamr2`. -/
noncomputable def scoreForCoord (ext : Ext D P R) (exps : List (Experiment D))
    (tRefs : List ℕ) (sols : List (List Vec3)) (amaxs : List ℝ)
    (plotPxSz : ℝ) (beamr1 beamr2 : Vec3) (xy : ℤ × ℤ) (σ : St P) :
    (Except Err ℝ) × St P :=
  sumScores ext exps tRefs sols amaxs
    (((xy.1 : ℝ) * plotPxSz) • beamr1 + ((xy.2 : ℝ) * plotPxSz) • beamr2) σ

/-- Evaluation of `scores = flex.double(get_experiment_score_for_coord(x, y)
for y in ... for x in ...)`: the generator is consumed in order and an
exception in any element aborts the whole construction. -/
noncomputable def gridScoresGo (ext : Ext D P R) (exps : List (Experiment D))
    (tRefs : List ℕ) (sols : List (List Vec3)) (amaxs : List ℝ)
    (plotPxSz : ℝ) (beamr1 beamr2 : Vec3) :
    List (ℤ × ℤ) → List ℝ → St P → (Except Err (List ℝ)) × St P
  | [], acc, σ => (.ok acc, σ)
  | c :: rest, acc, σ =>
    match scoreForCoord ext exps tRefs sols amaxs plotPxSz beamr1 beamr2 c σ with
    | (.ok s, σ1) =>
      gridScoresGo ext exps tRefs sols amaxs plotPxSz beamr1 beamr2 rest
        (acc ++ [s]) σ1
    | (.error e, σ1) => (.error e, σ1)

/-- The value of `flex.max` on a nonempty array. -/
noncomputable def flexMax : List ℝ → ℝ
  | [] => 0
  | a :: t => t.foldl max a

/-- The value of `flex.min` on a nonempty array. -/
noncomputable def flexMin : List ℝ → ℝ
  | [] => 0
  | a :: t => t.foldl min a

/-- The value of `flex.min_index` on a nonempty array: the first index
attaining the minimum. -/
noncomputable def flexMinIndex : List ℝ → ℕ
  | [] => 0
  | [_] => 0
  | a :: b :: t =>
    if a ≤ flexMin (b :: t) then 0 else flexMinIndex (b :: t) + 1

/-- `idxs[i] = igrid(i) * plot_px_sz` with `igrid(i) = i - widegrid // 2`. -/
noncomputable def gridIdx (widegrid : ℕ) (plotPxSz : ℝ) (i : ℕ) : ℝ :=
  ((i : ℝ) - ((widegrid / 2 : ℕ) : ℝ)) * plotPxSz

/-- The offset attached to flat grid index `i`:
`idxs[i % widegrid] * beamr1 + idxs[i // widegrid] * beamr2`. -/
noncomputable def offsetOfIndex (widegrid : ℕ) (plotPxSz : ℝ)
    (beamr1 beamr2 : Vec3) (i : ℕ) : Vec3 :=
  (gridIdx widegrid plotPxSz (i % widegrid)) • beamr1 +
    (gridIdx widegrid plotPxSz (i / widegrid)) • beamr2

/-- The `potential_offsets` array: the offsets of the flat grid indices
selected by `sel = scores > (0.9 * flex.max(scores))`, in increasing index
order (`sel.iselection()`). -/
noncomputable def selCandidates (scores : List ℝ) (widegrid : ℕ)
    (plotPxSz : ℝ) (beamr1 beamr2 : Vec3) : List Vec3 :=
  ((List.range scores.length).filter
      (fun i => 0.9 * flexMax scores < scores.getD i 0)).map
    (offsetOfIndex widegrid plotPxSz beamr1 beamr2)

/-- The stage-1 winner selection of `optimize_origin_offset_local_scope`
(lines 281-291): raise `Sorry("No valid scores")` when every score is
zero, otherwise pick, among the offsets scoring strictly more than 90% of
the maximum, the one `flex.min_index(potential_offsets.norms())` points
at; `flex.min_index` on an empty selection is itself an error. -/
noncomputable def wideSelect (scores : List ℝ) (widegrid : ℕ)
    (plotPxSz : ℝ) (beamr1 beamr2 : Vec3) : Except Err Vec3 :=
  if ∀ s ∈ scores, s = 0 then .error .noValidScores
  else
    let potentialOffsets := selCandidates scores widegrid plotPxSz beamr1 beamr2
    match potentialOffsets with
    | [] => .error .emptySelection
    | _ :: _ =>
      .ok (potentialOffsets.getD (flexMinIndex (potentialOffsets.map Vec3.norm3)) 0)

/-- `simplex_minimizer.target(vector)`: score the trial offset
`vector[0] * 0.2 * beamr1 + vector[1] * 0.2 * beamr2` (plus the wide
search offset when stage 1 ran) and negate the aggregate. -/
noncomputable def simplexTarget (ext : Ext D P R) (exps : List (Experiment D))
    (tRefs : List ℕ) (sols : List (List Vec3)) (amaxs : List ℝ)
    (beamr1 beamr2 : Vec3) (wide : Option Vec3) (v : ℝ × ℝ) (σ : St P) :
    (Except Err ℝ) × St P :=
  let trial0 := (v.1 * 0.2) • beamr1 + (v.2 * 0.2) • beamr2
  let trial := match wide with
    | some w => trial0 + w
    | none => trial0
  let res := sumScores ext exps tRefs sols amaxs trial σ
  (res.1.map (fun s => -s), res.2)

/-- The stage-2 simplex refinement: the scitbx `simplex_opt` black box
evaluates `target` at its trace of trial vectors (each evaluation mutates
the store exactly as the scoring does) and returns `get_solution()`; the
final offset is `x[0] * 0.2 * beamr1 + x[1] * 0.2 * beamr2`, plus the
stage-1 offset when present. -/
noncomputable def simplexStage (ext : Ext D P R) (exps : List (Experiment D))
    (tRefs : List ℕ) (sols : List (List Vec3)) (amaxs : List ℝ)
    (beamr1 beamr2 : Vec3) (wide : Option Vec3) :
    List (ℝ × ℝ) → St P → (Except Err Vec3) × St P
  | [], σ =>
    let sol := ext.simplexSol
    let off0 := (sol.1 * 0.2) • beamr1 + (sol.2 * 0.2) • beamr2
    (.ok (match wide with
      | some w => off0 + w
      | none => off0), σ)
  | v :: rest, σ =>
    match simplexTarget ext exps tRefs sols amaxs beamr1 beamr2 wide v σ with
    | (.ok _, σ1) => simplexStage ext exps tRefs sols amaxs beamr1 beamr2 wide rest σ1
    | (.error e, σ1) => (.error e, σ1)

/-- Lines 392-395: `new_experiments = copy.deepcopy(experiments)` followed
by `expt.detector = dps_extended.get_new_detector(expt.detector,
new_offset)` for each deep copy.  Deep-copying an experiment allocates a
fresh goniometer holding the current fixed rotation of the original's
goniometer. -/
def applyOffsetGo (ext : Ext D P R) (off : Vec3) :
    List (Experiment D) → St P → List (Experiment D) × St P
  | [], σ => ([], σ)
  | e :: rest, σ =>
    let ar := σ.allocGonio (σ.gonios e.gonioRef)
    let e1 : Experiment D :=
      { detector := ext.getNewDetector e.detector off, s0 := e.s0,
        gonioRef := ar.1 }
    let res := applyOffsetGo ext off rest ar.2
    (e1 :: res.1, res.2)

/-- Lines 238-241: the offset basis built from the first experiment's
beam; `axis = (1, 0, 0)`, `beamr0 = s0.cross(axis).normalize()`,
`beamr1 = beamr0.cross(s0).normalize()`,
`beamr2 = beamr1.cross(s0).normalize()`.  Returns `(beamr1, beamr2)`. -/
noncomputable def beamBasis (s0 : Vec3) : Vec3 × Vec3 :=
  let axis : Vec3 := ⟨1, 0, 0⟩
  let beamr0 := (s0.cross axis).normalize3
  let beamr1 := (beamr0.cross s0).normalize3
  let beamr2 := (beamr1.cross s0).normalize3
  (beamr1, beamr2)

/-- The stage-1 wide search of `optimize_origin_offset_local_scope`: when
`mm_search_scope` is falsy, `wide_search_offset = None`; otherwise the
grid spacing is `pixel_size * wide_search_binning`, the half-width is
`max(1, int(mm_search_scope / plot_px_sz))`, the scores are evaluated
over the whole grid, and the winner is selected by `wideSelect`. -/
noncomputable def wideStage (ext : Ext D P R) (exps : List (Experiment D))
    (tRefs : List ℕ) (sols : List (List Vec3)) (amaxs : List ℝ)
    (mmSearchScope wideSearchBinning : ℝ) (e0 : Experiment D)
    (beamr1 beamr2 : Vec3) (σ : St P) :
    (Except Err (Option Vec3)) × St P :=
  if mmSearchScope = 0 then (.ok none, σ)
  else
    let plotPxSz := ext.pixelSize0 e0.detector * wideSearchBinning
    let grid := (max 1 (Int.floor (mmSearchScope / plotPxSz))).toNat
    let widegrid := 2 * grid + 1
    match gridScoresGo ext exps tRefs sols amaxs plotPxSz beamr1 beamr2
        (gridCoords grid) [] σ with
    | (.ok scores, σ1) =>
      match wideSelect scores widegrid plotPxSz beamr1 beamr2 with
      | .ok w => (.ok (some w), σ1)
      | .error e => (.error e, σ1)
    | (.error e, σ1) => (.error e, σ1)

/-- Translation of `optimize_origin_offset_local_scope` (with
`plot_search_scope=False`, its default in this pipeline): build the
offset basis from the first experiment's beam; if `mm_search_scope` is
truthy run the wide grid search and the stage-1 selection; then run the
simplex refinement seeded on top of the stage-1 offset; finally deep-copy
the experiments and install the shifted detectors. -/
noncomputable def optimizeOriginOffsetLocalScope (ext : Ext D P R)
    (exps : List (Experiment D)) (tRefs : List ℕ) (sols : List (List Vec3))
    (amaxs : List ℝ) (mmSearchScope wideSearchBinning : ℝ) (σ : St P) :
    (Except Err (List (Experiment D))) × St P :=
  match exps with
  | [] => (.error .indexError, σ)
  | e0 :: _ =>
    let basis := beamBasis e0.s0
    let beamr1 := basis.1
    let beamr2 := basis.2
    match wideStage ext exps tRefs sols amaxs mmSearchScope wideSearchBinning
        e0 beamr1 beamr2 σ with
    | (.ok wide, σ1) =>
      match simplexStage ext exps tRefs sols amaxs beamr1 beamr2 wide
          ext.simplexTrace σ1 with
      | (.ok off, σ2) =>
        let res := applyOffsetGo ext off exps σ2
        (.ok res.1, res.2)
      | (.error e, σ2) => (.error e, σ2)
    | (.error e, σ1) => (.error e, σ1)

/-- The per-experiment result of `run_dps`: the DPS direction solutions
(as `dvec` vectors) and the estimated `amax`. -/
structure DpsResult where
  solutions : List Vec3
  amax : ℝ

/-- Translation of the tail of `run_dps`: the DPS black box produces a
solution list and `amax`; with fewer than 3 solutions the function
returns an empty dict, modelled as `none`. -/
def runDps (ext : Ext D P R) (e : Experiment D) (p : P) (maxCell : ℝ) :
    Option DpsResult :=
  let res := ext.finder e.detector e.s0 p maxCell
  if res.1.length < 3 then none else some ⟨res.1, res.2⟩

/-- The collection loop of `discover_better_experimental_model`: results
arrive in experiment order from `pool.map`, and a result is appended to
`solution_lists` / `amax_list` exactly when `result.get("solutions")` is
truthy (the dict is nonempty and holds a nonempty solution array). -/
def collectResults (results : List (Option DpsResult)) :
    List (List Vec3) × List ℝ :=
  results.foldl
    (fun acc r =>
      match r with
      | some d =>
        match d.solutions with
        | [] => acc
        | _ :: _ => (acc.1 ++ [d.solutions], acc.2 ++ [d.amax])
      | none => acc)
    ([], [])

/-- Configuration subset of the `default` phil scope that the modelled
pipeline reads. -/
structure Params where
  maxCell : Option ℝ
  maxReflections : Option ℕ
  dMin : Option ℝ

/-- The per-experiment preprocessing of `discover_better_experimental_model`
(lines 529-556): deep-copy the reflection table, write `imageset_id`,
convert centroids to mm, map to reciprocal space under the experiment's
current goniometer, optionally filter by `d_min` (a `select`, allocating
a new table), derive a per-experiment max cell when none is configured,
and optionally subsample to `max_reflections` (another `select`).
Returns the reference the processed table ends up at, the optional
max-cell contribution, and the new store. -/
noncomputable def preprocessOne (ext : Ext D P R) (params : Params)
    (e : Experiment D) (tRef : ℕ) (σ : St P) : ℕ × Option ℝ × St P :=
  let a1 := σ.allocTable (σ.tables tRef)
  let c := a1.1
  let σ1 := a1.2
  let σ2 := σ1.writeTable c (ext.setImagesetId (σ1.tables c))
  let σ3 := σ2.writeTable c (ext.pxToMm e.detector (σ2.tables c))
  let σ4 := σ3.writeTable c
    (ext.mapRlp e.detector e.s0 (σ3.gonios e.gonioRef) (σ3.tables c))
  let a5 := match params.dMin with
    | some dm => σ4.allocTable (ext.dminSelect dm (σ4.tables c))
    | none => (c, σ4)
  let c5 := a5.1
  let σ5 := a5.2
  let mc : Option ℝ := match params.maxCell with
    | none => some (ext.findMaxCell (σ5.tables c5))
    | some _ => none
  let a6 := match params.maxReflections with
    | some cap =>
      if cap < ext.tableSize (σ5.tables c5) then
        σ5.allocTable (ext.subsample cap (σ5.tables c5))
      else (c5, σ5)
    | none => (c5, σ5)
  (a6.1, mc, a6.2)

/-- The preprocessing loop over `zip(experiments, reflections)`,
accumulating `refl_lists` and `max_cell_list` in input order. -/
noncomputable def preprocessGo (ext : Ext D P R) (params : Params) :
    List (Experiment D × ℕ) → List ℕ → List ℝ → St P →
    (List ℕ × List ℝ) × St P
  | [], refAcc, mcAcc, σ => ((refAcc, mcAcc), σ)
  | (e, t) :: rest, refAcc, mcAcc, σ =>
    let r := preprocessOne ext params e t σ
    preprocessGo ext params rest (refAcc ++ [r.1])
      (mcAcc ++ (match r.2.1 with
        | some m => [m]
        | none => [])) r.2.2

/-- Translation of `discover_better_experimental_model`: the length and
nonemptiness asserts; the beam-intersection check on the first
experiment; per-experiment preprocessing; the shared max cell (configured
or the median of the per-experiment estimates); `run_dps` per experiment
(in input order, as `pool.map` yields); the collection filter; the
`Sorry("No solutions found")` raise when nothing was collected; and the
call to `optimize_origin_offset_local_scope` with the FULL experiment and
reflection lists but the FILTERED solution and amax lists, exactly as in
the source. -/
noncomputable def discoverBetterExperimentalModel (ext : Ext D P R)
    (exps : List (Experiment D)) (tRefs : List ℕ) (params : Params)
    (mmSearchScope wideSearchBinning : ℝ) (σ : St P) :
    (Except Err (List (Experiment D))) × St P :=
  if exps.length = tRefs.length ∧ exps.length ≠ 0 then
    match exps with
    | [] => (.error .assertionError, σ)
    | e0 :: _ =>
      if ext.beamIntersects e0.detector e0.s0 then
        let pre := preprocessGo ext params (exps.zip tRefs) [] [] σ
        let refLists := pre.1.1
        let maxCells := pre.1.2
        let σ1 := pre.2
        let maxCell := match params.maxCell with
          | some m => m
          | none => ext.median maxCells
        let results := (exps.zip refLists).map
          (fun et => runDps ext et.1 (σ1.tables et.2) maxCell)
        let coll := collectResults results
        match coll.1 with
        | [] => (.error .noSolutions, σ1)
        | _ :: _ =>
          optimizeOriginOffsetLocalScope ext exps refLists coll.1 coll.2
            mmSearchScope wideSearchBinning σ1
      else (.error .beamMismatch, σ)
  else (.error .assertionError, σ)


/-- The selection the claim describes, with an inclusive threshold: the
offsets of the grid points scoring at least 90% of the maximum.  (The
source uses a strict comparison; this definition follows the claim's
words, for comparison.) -/
noncomputable def specSelCandidates (scores : List ℝ) (widegrid : ℕ)
    (plotPxSz : ℝ) (beamr1 beamr2 : Vec3) : List Vec3 :=
  ((List.range scores.length).filter
      (fun i => 0.9 * flexMax scores ≤ scores.getD i 0)).map
    (offsetOfIndex widegrid plotPxSz beamr1 beamr2)

/-- The stage-1 offset the claim describes: the minimum-norm offset among
the inclusive-threshold candidates. -/
noncomputable def specWideChoice (scores : List ℝ) (widegrid : ℕ)
    (plotPxSz : ℝ) (beamr1 beamr2 : Vec3) : Vec3 :=
  (specSelCandidates scores widegrid plotPxSz beamr1 beamr2).getD
    (flexMinIndex
      ((specSelCandidates scores widegrid plotPxSz beamr1 beamr2).map
        Vec3.norm3)) 0

/-- A concrete instantiation of the external interfaces over `Vec3`
throughout: a detector is its accumulated origin, `get_new_detector`
translates it, and `map_centroids_to_reciprocal_space` records the
geometry it was given.  Used to exercise the pipeline on closed inputs. -/
def extVecBase : Ext Vec3 Vec3 Vec3 where
  getNewDetector := fun d off => d + off
  pixelSize0 := fun _ => 4
  setImagesetId := id
  pxToMm := fun _ p => p
  mapRlp := fun d _ _ _ => d
  rlpOf := id
  rlpSize := fun _ => 0
  dirFFT := fun _ _ _ => ⟨0, 0, 0, 1, 1, 0⟩
  dminSelect := fun _ p => p
  findMaxCell := fun _ => 0
  tableSize := fun _ => 0
  subsample := fun _ p => p
  median := fun _ => 0
  beamIntersects := fun _ _ => true
  finder := fun _ _ _ _ => ([], 0)
  simplexTrace := []
  simplexSol := (0, 0)

/-- A non-identity goniometer fixed rotation. -/
def gonioA : Mat3 := ⟨2, 0, 0, 0, 1, 0, 0, 0, 1⟩

/-- A store holding one goniometer with the non-identity fixed rotation
`gonioA` and one reflection table. -/
def sigmaC2 : St Vec3 := ⟨fun _ => gonioA, 1, fun _ => 0, 1⟩

/-- An experiment whose goniometer is the stored one. -/
def expC2 : Experiment Vec3 := ⟨0, ⟨0, 0, 1⟩, 0⟩

/-- An experiment for closed-input runs of the optimizer. -/
def expC9 : Experiment Vec3 := ⟨0, ⟨0, 0, 1⟩, 0⟩

/-- A store with one goniometer and one table, for closed-input runs. -/
def sigmaC9 : St Vec3 := ⟨fun _ => id3, 1, fun _ => 0, 1⟩

/-- The final offset of the `mm_search_scope = 0` closed run: the simplex
solution mapped through the basis, with no stage-1 contribution. -/
noncomputable def offC9 : Vec3 :=
  (extVecBase.simplexSol.1 * 0.2) • (beamBasis expC9.s0).1 +
    (extVecBase.simplexSol.2 * 0.2) • (beamBasis expC9.s0).2

/-- The output experiments of the `mm_search_scope = 0` closed run. -/
noncomputable def outC9 : List (Experiment Vec3) :=
  (applyOffsetGo extVecBase offC9 [expC9] sigmaC9).1

/-- Equality of real 3-vectors, decided classically (used only to build
closed scenario instantiations of the external interfaces). -/
noncomputable instance : DecidableEq Vec3 := Classical.decEq Vec3

/-- Externals for the shortfall scenario of `run_dps`: the direction
finder yields 2 solutions for the experiment whose detector sits at the
origin and 3 solutions for any other experiment. -/
noncomputable def extC1 : Ext Vec3 Vec3 Vec3 :=
  { extVecBase with
    finder := fun d _ _ _ =>
      if d.x = 0 then ([⟨1, 0, 0⟩, ⟨0, 1, 0⟩], 1)
      else ([⟨1, 0, 0⟩, ⟨0, 1, 0⟩, ⟨0, 0, 1⟩], 1) }

/-- First experiment of the shortfall batch (2 direction solutions). -/
def expC1a : Experiment Vec3 := ⟨⟨0, 0, 0⟩, ⟨0, 0, 1⟩, 0⟩

/-- Second experiment of the shortfall batch (3 direction solutions). -/
def expC1b : Experiment Vec3 := ⟨⟨1, 0, 0⟩, ⟨0, 0, 1⟩, 1⟩

/-- Store for the shortfall batch: two goniometers, two tables. -/
def sigmaC1 : St Vec3 := ⟨fun _ => id3, 2, fun _ => 0, 2⟩

/-- Parameters with a configured max cell, no subsampling, no d_min. -/
def paramsC1 : Params := ⟨some 1, none, none⟩

/-- Externals whose aggregate score is 3 at the single offset that moves
the detector to `(4, 0, 0)` and 0 everywhere else, with a simplex box
that returns the displacement `(1, 1)`. -/
noncomputable def extC7 : Ext Vec3 Vec3 Vec3 :=
  { extVecBase with
    dirFFT := fun _ r _ =>
      if r = ⟨4, 0, 0⟩ then ⟨1, 0, 0, 1, 1, 0⟩ else ⟨0, 0, 0, 1, 1, 0⟩,
    finder := fun _ _ _ _ => ([⟨1, 0, 0⟩, ⟨0, 1, 0⟩, ⟨0, 0, 1⟩], 1),
    simplexSol := (1, 1) }

/-- The experiment of the peaked-score scenario. -/
def expC7 : Experiment Vec3 := ⟨0, ⟨0, 0, 1⟩, 0⟩

/-- Store for the peaked-score scenario. -/
def sigmaC7 : St Vec3 := ⟨fun _ => id3, 1, fun _ => 0, 1⟩

/-- Three direction solutions for the peaked-score scenario. -/
def solsC7 : List Vec3 := [⟨1, 0, 0⟩, ⟨0, 1, 0⟩, ⟨0, 0, 1⟩]

/-- The nine grid scores the peaked-score scenario produces. -/
def scoresC7 : List ℝ := [0, 0, 0, 0, 0, 3, 0, 0, 0]

/-- A trivial concrete instantiation of the external interfaces over
unit types, used to exercise the generic theorems on closed inputs. -/
def extTriv : Ext Unit Unit Unit where
  getNewDetector := fun d _ => d
  pixelSize0 := fun _ => 1
  setImagesetId := id
  pxToMm := fun _ p => p
  mapRlp := fun _ _ _ p => p
  rlpOf := id
  rlpSize := fun _ => 8
  dirFFT := fun _ _ _ => ⟨0, 0, 0, 1, 1, 0⟩
  dminSelect := fun _ p => p
  findMaxCell := fun _ => 0
  tableSize := fun _ => 0
  subsample := fun _ p => p
  median := fun _ => 0
  beamIntersects := fun _ _ => true
  finder := fun _ _ _ _ => ([], 0)
  simplexTrace := []
  simplexSol := (0, 0)

/-! ## Helper lemmas -/

/-- A left fold that conditionally accumulates equals the starting value
plus a guarded sum. -/
theorem foldl_cond_add (f : ℕ → ℝ) (p : ℕ → Prop) [DecidablePred p] :
    ∀ (n : ℕ) (a : ℝ),
      (List.range n).foldl (fun acc t => if p t then acc + f t else acc) a =
        a + ∑ t ∈ Finset.range n, if p t then f t else 0
  | 0, a => by simp
  | n + 1, a => by
    rw [List.range_succ, List.foldl_append, foldl_cond_add f p n a,
      Finset.sum_range_succ]
    by_cases h : p n <;> simp [h, add_assoc]

/-! ## C3: the origin-offset scorer -/

/-- Claim C3: `_sum_score_detail` evaluates exactly the top
`min(N, 20)` ranked solutions; a solution contributes if and only if its
dominant FFT magnitude `kval` strictly exceeds `N_vec / 4`; each
qualifying contribution is
`cos(phase + 2*pi*kmax*kbeam / (2*N_fft - 1))` with
`kbeam = (-pmin)/delta_p + 0.5` and lies in `[-1, 1]`; and the returned
score is the sum of the qualifying contributions (`0.0` when none
qualifies, not an error). -/
theorem claim_C3_scorer_formula (ext : Ext D P R) (rsv : R)
    (solutions : List Vec3) (amax : ℝ) :
    (sumScoreDetail ext rsv solutions amax =
      ∑ t ∈ Finset.range (min solutions.length 20),
        if (ext.rlpSize rsv : ℝ) / 4 <
            (ext.dirFFT (solutions.getD t 0) rsv amax).kval then
          fftContribution (ext.dirFFT (solutions.getD t 0) rsv amax)
        else 0) ∧
    (∀ dfft : FFTOut, -1 ≤ fftContribution dfft ∧ fftContribution dfft ≤ 1) ∧
    ((∀ t < min solutions.length 20,
        ¬ (ext.rlpSize rsv : ℝ) / 4 <
            (ext.dirFFT (solutions.getD t 0) rsv amax).kval) →
      sumScoreDetail ext rsv solutions amax = 0) := by
  have hform : sumScoreDetail ext rsv solutions amax =
      ∑ t ∈ Finset.range (min solutions.length 20),
        if (ext.rlpSize rsv : ℝ) / 4 <
            (ext.dirFFT (solutions.getD t 0) rsv amax).kval then
          fftContribution (ext.dirFFT (solutions.getD t 0) rsv amax)
        else 0 := by
    simp only [sumScoreDetail, fftContribution]
    rw [foldl_cond_add]
    rw [zero_add]
  refine ⟨hform, fun dfft => ⟨Real.neg_one_le_cos _, Real.cos_le_one _⟩, ?_⟩
  intro hnone
  rw [hform]
  refine Finset.sum_eq_zero fun t ht => ?_
  rw [if_neg (hnone t (Finset.mem_range.mp ht))]

theorem claim_C3_witness :
    sumScoreDetail extTriv () [⟨1, 0, 0⟩, ⟨0, 1, 0⟩, ⟨0, 0, 1⟩] 1 = 0 :=
  (claim_C3_scorer_formula extTriv () [⟨1, 0, 0⟩, ⟨0, 1, 0⟩, ⟨0, 0, 1⟩] 1).2.2
    (by intro t _; simp [extTriv]; norm_num)


/-! ## C5: the all-zero grid guard -/

/-- Claim C5: the stage-1 selection raises `Sorry("No valid scores")` (the
spec's `InsufficientSignal`) if and only if every evaluated grid score is
exactly zero; and in the all-zero case the selection never yields an
offset, so no updated geometry can be produced. -/
theorem claim_C5_insufficient_signal (scores : List ℝ) (widegrid : ℕ)
    (plotPxSz : ℝ) (beamr1 beamr2 : Vec3) :
    (wideSelect scores widegrid plotPxSz beamr1 beamr2 =
        Except.error Err.noValidScores ↔
      ∀ s ∈ scores, s = 0) ∧
    ((∀ s ∈ scores, s = 0) → ∀ v : Vec3,
      wideSelect scores widegrid plotPxSz beamr1 beamr2 ≠ Except.ok v) := by
  have hiff : wideSelect scores widegrid plotPxSz beamr1 beamr2 =
      Except.error Err.noValidScores ↔ ∀ s ∈ scores, s = 0 := by
    by_cases h : ∀ s ∈ scores, s = 0
    · unfold wideSelect
      rw [if_pos h]
      simpa using h
    · unfold wideSelect
      rw [if_neg h]
      cases hc : selCandidates scores widegrid plotPxSz beamr1 beamr2 <;>
        simp [hc, h]
  refine ⟨hiff, fun hall v => ?_⟩
  rw [hiff.mpr hall]
  simp

/-- Witness for C5: on an all-zero score array the selection yields the
domain error, hence no offset. -/
theorem claim_C5_witness :
    wideSelect [0, 0] 3 1 ⟨1, 0, 0⟩ ⟨0, 1, 0⟩ ≠ Except.ok ⟨0, 0, 0⟩ :=
  (claim_C5_insufficient_signal [0, 0] 3 1 ⟨1, 0, 0⟩ ⟨0, 1, 0⟩).2
    (by simp) ⟨0, 0, 0⟩

/-! ## C6: the solution collector -/

/-- The collection loop of `discover_better_experimental_model`, run from
an arbitrary accumulator, appends exactly the non-empty results in input
order. -/
theorem collect_aux :
    ∀ (results : List (Option DpsResult)) (acc : List (List Vec3) × List ℝ),
      results.foldl
        (fun acc r =>
          match r with
          | some d =>
            match d.solutions with
            | [] => acc
            | _ :: _ => (acc.1 ++ [d.solutions], acc.2 ++ [d.amax])
          | none => acc) acc =
      (acc.1 ++ results.filterMap (fun r => r.bind fun d =>
          match d.solutions with
          | [] => none
          | _ :: _ => some d.solutions),
       acc.2 ++ results.filterMap (fun r => r.bind fun d =>
          match d.solutions with
          | [] => none
          | _ :: _ => some d.amax))
  | [], acc => by simp
  | r :: rest, acc => by
    cases r with
    | none => simp [collect_aux rest acc]
    | some d =>
      cases hs : d.solutions with
      | nil => simp [collect_aux rest acc, hs]
      | cons a t => simp [collect_aux rest _, hs]

/-- Claim C6: `run_dps` returns an empty result exactly when the direction
finder yields fewer than 3 solutions; the collection loop is an
order-preserving filter of the per-experiment results that discards the
empty ones; and the collected solution list is empty (the
`Sorry("No solutions found")` condition) if and only if every
experiment's direction search fell short. -/
theorem claim_C6_collector (ext : Ext D P R) (works : List (Experiment D × P))
    (maxCell : ℝ) :
    (∀ (e : Experiment D) (p : P),
        runDps ext e p maxCell = none ↔
          (ext.finder e.detector e.s0 p maxCell).1.length < 3) ∧
    (∀ results : List (Option DpsResult),
        collectResults results =
          (results.filterMap (fun r => r.bind fun d =>
             match d.solutions with
             | [] => none
             | _ :: _ => some d.solutions),
           results.filterMap (fun r => r.bind fun d =>
             match d.solutions with
             | [] => none
             | _ :: _ => some d.amax))) ∧
    ((collectResults (works.map (fun ep => runDps ext ep.1 ep.2 maxCell))).1 =
          [] ↔
      ∀ ep ∈ works,
        (ext.finder ep.1.detector ep.1.s0 ep.2 maxCell).1.length < 3) := by
  have h1 : ∀ (e : Experiment D) (p : P),
      runDps ext e p maxCell = none ↔
        (ext.finder e.detector e.s0 p maxCell).1.length < 3 := by
    intro e p
    by_cases h : (ext.finder e.detector e.s0 p maxCell).1.length < 3 <;>
      simp [runDps, h]
  have h2 : ∀ results : List (Option DpsResult),
      collectResults results =
        (results.filterMap (fun r => r.bind fun d =>
           match d.solutions with
           | [] => none
           | _ :: _ => some d.solutions),
         results.filterMap (fun r => r.bind fun d =>
           match d.solutions with
           | [] => none
           | _ :: _ => some d.amax)) := by
    intro results
    simpa [collectResults] using collect_aux results ([], [])
  refine ⟨h1, h2, ?_⟩
  rw [h2]
  simp only [List.filterMap_map]
  rw [List.filterMap_eq_nil_iff]
  constructor
  · intro hall ep hep
    have := hall ep hep
    by_contra hge
    have hrun : runDps ext ep.1 ep.2 maxCell =
        some ⟨(ext.finder ep.1.detector ep.1.s0 ep.2 maxCell).1,
              (ext.finder ep.1.detector ep.1.s0 ep.2 maxCell).2⟩ := by
      simp [runDps, hge]
    rw [Function.comp_apply, hrun] at this
    cases hsols : (ext.finder ep.1.detector ep.1.s0 ep.2 maxCell).1 with
    | nil => exact hge (by simp [hsols])
    | cons a t => simp [hsols] at this
  · intro hall ep hep
    have := (h1 ep.1 ep.2).mpr (hall ep hep)
    simp [Function.comp_apply, this]


/-! ## Minimum and maximum helper lemmas for the flex operations -/

/-- Folding `min` from a two-part seed splits off the first component. -/
theorem foldl_min_expand :
    ∀ (l : List ℝ) (a x : ℝ), l.foldl min (min a x) = min a (l.foldl min x)
  | [], a, x => by simp
  | y :: t, a, x => by
    simp only [List.foldl_cons]
    rw [min_assoc, foldl_min_expand t a (min x y)]

/-- Folding `max` from a two-part seed splits off the first component. -/
theorem foldl_max_expand :
    ∀ (l : List ℝ) (a x : ℝ), l.foldl max (max a x) = max a (l.foldl max x)
  | [], a, x => by simp
  | y :: t, a, x => by
    simp only [List.foldl_cons]
    rw [max_assoc, foldl_max_expand t a (max x y)]

/-- `flex.min` of a list with at least two elements peels off the head. -/
theorem flexMin_cons (a x : ℝ) (t : List ℝ) :
    flexMin (a :: x :: t) = min a (flexMin (x :: t)) := by
  simp only [flexMin, List.foldl_cons]
  exact foldl_min_expand t a x

/-- `flex.max` of a list with at least two elements peels off the head. -/
theorem flexMax_cons (a x : ℝ) (t : List ℝ) :
    flexMax (a :: x :: t) = max a (flexMax (x :: t)) := by
  simp only [flexMax, List.foldl_cons]
  exact foldl_max_expand t a x

/-- `flex.min` is a lower bound of the array. -/
theorem flexMin_le : ∀ (l : List ℝ), ∀ s ∈ l, flexMin l ≤ s
  | [], s, hs => by simp at hs
  | [a], s, hs => by
    simp only [List.mem_singleton] at hs
    simp [flexMin, hs]
  | a :: x :: t, s, hs => by
    rw [flexMin_cons]
    rcases List.mem_cons.mp hs with h | h
    · exact h ▸ min_le_left _ _
    · exact le_trans (min_le_right _ _) (flexMin_le (x :: t) s h)

/-- `flex.max` is an upper bound of the array. -/
theorem le_flexMax : ∀ (l : List ℝ), ∀ s ∈ l, s ≤ flexMax l
  | [], s, hs => by simp at hs
  | [a], s, hs => by
    simp only [List.mem_singleton] at hs
    simp [flexMax, hs]
  | a :: x :: t, s, hs => by
    rw [flexMax_cons]
    rcases List.mem_cons.mp hs with h | h
    · exact h ▸ le_max_left _ _
    · exact le_trans (le_flexMax (x :: t) s h) (le_max_right _ _)

/-- `flex.max` of a nonempty array is attained by one of its elements. -/
theorem flexMax_mem : ∀ (l : List ℝ), l ≠ [] → flexMax l ∈ l
  | [], h => absurd rfl h
  | [a], _ => by simp [flexMax]
  | a :: x :: t, _ => by
    rw [flexMax_cons]
    rcases max_choice a (flexMax (x :: t)) with h | h
    · simp [h]
    · rw [h]
      exact List.mem_cons_of_mem a (flexMax_mem (x :: t) (by simp))

/-- `flex.min_index` of a nonempty array is a valid index. -/
theorem flexMinIndex_lt_length : ∀ (l : List ℝ), l ≠ [] → flexMinIndex l < l.length
  | [], h => absurd rfl h
  | [a], _ => by simp [flexMinIndex]
  | a :: x :: t, _ => by
    by_cases hc : a ≤ flexMin (x :: t)
    · simp [flexMinIndex, hc]
    · simp only [flexMinIndex, if_neg hc, List.length_cons]
      exact Nat.succ_lt_succ (flexMinIndex_lt_length (x :: t) (by simp))

/-- The element at `flex.min_index` is the minimum. -/
theorem getD_flexMinIndex : ∀ (l : List ℝ), l ≠ [] →
    l.getD (flexMinIndex l) 0 = flexMin l
  | [], h => absurd rfl h
  | [a], _ => by simp [flexMinIndex, flexMin]
  | a :: x :: t, _ => by
    by_cases hc : a ≤ flexMin (x :: t)
    · rw [flexMin_cons, min_eq_left hc]
      simp [flexMinIndex, hc]
    · rw [flexMin_cons, min_eq_right (le_of_not_le hc)]
      simp only [flexMinIndex, if_neg hc, List.getD_cons_succ]
      exact getD_flexMinIndex (x :: t) (by simp)

/-! ## C4: the stage-1 near-maximal selection and tie-break -/

/-- Claim C4 (amended): the stage-1 offset is chosen from exactly the grid
points scoring STRICTLY more than 90% of the maximum (the source uses
`scores > 0.9 * flex.max(scores)`, not an inclusive comparison), and
among those the offset of smallest Euclidean norm is selected; the
selection is well-defined whenever the maximum grid score is positive
(then the maximising point itself qualifies). -/
theorem claim_C4_amended (scores : List ℝ) (widegrid : ℕ) (plotPxSz : ℝ)
    (beamr1 beamr2 : Vec3) (hne : scores ≠ []) (hpos : 0 < flexMax scores) :
    ∃ c, wideSelect scores widegrid plotPxSz beamr1 beamr2 = Except.ok c ∧
      selCandidates scores widegrid plotPxSz beamr1 beamr2 ≠ [] ∧
      c ∈ selCandidates scores widegrid plotPxSz beamr1 beamr2 ∧
      ∀ v ∈ selCandidates scores widegrid plotPxSz beamr1 beamr2,
        Vec3.norm3 c ≤ Vec3.norm3 v := by
  have h0 : ¬ ∀ s ∈ scores, s = 0 := fun hall =>
    absurd (hall _ (flexMax_mem scores hne)) (ne_of_gt hpos)
  have hcne : selCandidates scores widegrid plotPxSz beamr1 beamr2 ≠ [] := by
    obtain ⟨n, hn⟩ := List.mem_iff_get.mp (flexMax_mem scores hne)
    have hmem : (n : ℕ) ∈ (List.range scores.length).filter
        (fun i => decide (0.9 * flexMax scores < scores.getD i 0)) := by
      rw [List.mem_filter]
      refine ⟨List.mem_range.mpr n.isLt, ?_⟩
      rw [decide_eq_true_iff]
      rw [List.getD_eq_getElem scores 0 n.isLt]
      have : scores[(n : ℕ)] = flexMax scores := by
        rw [← hn]; rfl
      rw [this]
      linarith
    exact List.ne_nil_of_mem
      (List.mem_map_of_mem (offsetOfIndex widegrid plotPxSz beamr1 beamr2) hmem)
  set cands := selCandidates scores widegrid plotPxSz beamr1 beamr2 with hcands
  have hlt : flexMinIndex (cands.map Vec3.norm3) < cands.length := by
    have := flexMinIndex_lt_length (cands.map Vec3.norm3)
      (by simpa using hcne)
    simpa using this
  refine ⟨cands.getD (flexMinIndex (cands.map Vec3.norm3)) 0, ?_, hcne, ?_, ?_⟩
  · unfold wideSelect
    rw [if_neg h0]
    rw [← hcands]
    cases hx : cands with
    | nil => exact absurd hx hcne
    | cons hd tl => simp [← hx]
  · rw [List.getD_eq_getElem cands 0 hlt]
    exact List.getElem_mem hlt
  · intro v hv
    have hc : cands.getD (flexMinIndex (cands.map Vec3.norm3)) 0 =
        cands[flexMinIndex (cands.map Vec3.norm3)] :=
      List.getD_eq_getElem cands 0 hlt
    have hmapped : Vec3.norm3 (cands.getD (flexMinIndex (cands.map Vec3.norm3)) 0) =
        (cands.map Vec3.norm3).getD (flexMinIndex (cands.map Vec3.norm3)) 0 := by
      rw [hc, List.getD_eq_getElem (cands.map Vec3.norm3) 0 (by simpa using hlt)]
      simp
    rw [hmapped, getD_flexMinIndex (cands.map Vec3.norm3) (by simpa using hcne)]
    exact flexMin_le (cands.map Vec3.norm3) _ (List.mem_map_of_mem Vec3.norm3 hv)

/-- Witness for C4: the amended selection applied to a one-point grid with
a positive score. -/
theorem claim_C4_witness :
    ∃ c, wideSelect [1] 1 1 ⟨1, 0, 0⟩ ⟨0, 1, 0⟩ = Except.ok c ∧
      selCandidates [1] 1 1 ⟨1, 0, 0⟩ ⟨0, 1, 0⟩ ≠ [] ∧
      c ∈ selCandidates [1] 1 1 ⟨1, 0, 0⟩ ⟨0, 1, 0⟩ ∧
      ∀ v ∈ selCandidates [1] 1 1 ⟨1, 0, 0⟩ ⟨0, 1, 0⟩,
        Vec3.norm3 c ≤ Vec3.norm3 v :=
  claim_C4_amended [1] 1 1 ⟨1, 0, 0⟩ ⟨0, 1, 0⟩ (by simp)
    (by norm_num [flexMax])


/-! ## Componentwise computation lemmas for Vec3 -/

/-- Scalar multiplication computed componentwise. -/
theorem Vec3.smul_mk (c x y z : ℝ) :
    c • (⟨x, y, z⟩ : Vec3) = ⟨c * x, c * y, c * z⟩ := rfl

/-- Addition computed componentwise. -/
theorem Vec3.add_mk (a b c d e f : ℝ) :
    (⟨a, b, c⟩ : Vec3) + ⟨d, e, f⟩ = ⟨a + d, b + e, c + f⟩ := rfl

/-- The zero vector, componentwise. -/
theorem Vec3.zero_mk : (0 : Vec3) = ⟨0, 0, 0⟩ := rfl

/-- Counterexample to C4 as stated: on the 3-by-3 grid with scores
`[1, 0, 0, 0, 0.9, 0, 0, 0, 0]` (maximum 1 at the corner, exactly 90% of
the maximum at the centre), the source's strict comparison excludes the
centre point, so the code picks the corner offset, while the claimed
inclusive at-least-90% rule would pick the centre (the smaller-norm
offset). -/
theorem claim_C4_counterexample :
    wideSelect [1, 0, 0, 0, 0.9, 0, 0, 0, 0] 3 1 ⟨1, 0, 0⟩ ⟨0, -1, 0⟩ ≠
      Except.ok
        (specWideChoice [1, 0, 0, 0, 0.9, 0, 0, 0, 0] 3 1 ⟨1, 0, 0⟩
          ⟨0, -1, 0⟩) := by
  have hmax : flexMax [1, 0, 0, 0, 0.9, 0, 0, 0, 0] = 1 := by
    norm_num [flexMax]
  have hoff0 : offsetOfIndex 3 1 ⟨1, 0, 0⟩ ⟨0, -1, 0⟩ 0 = ⟨-1, 1, 0⟩ := by
    simp only [offsetOfIndex, gridIdx]
    norm_num [Vec3.smul_mk, Vec3.add_mk]
  have hoff4 : offsetOfIndex 3 1 ⟨1, 0, 0⟩ ⟨0, -1, 0⟩ 4 = ⟨0, 0, 0⟩ := by
    simp only [offsetOfIndex, gridIdx]
    norm_num [Vec3.smul_mk, Vec3.add_mk]
  have hsel : selCandidates [1, 0, 0, 0, 0.9, 0, 0, 0, 0] 3 1 ⟨1, 0, 0⟩
      ⟨0, -1, 0⟩ = [⟨-1, 1, 0⟩] := by
    unfold selCandidates
    rw [hmax]
    have hfil : (List.range
        ([1, 0, 0, 0, 0.9, 0, 0, 0, 0] : List ℝ).length).filter
        (fun i => 0.9 * (1 : ℝ) <
          ([1, 0, 0, 0, 0.9, 0, 0, 0, 0] : List ℝ).getD i 0) = [0] := by
      norm_num [List.range_succ, List.filter_append]
    rw [hfil, List.map_singleton, hoff0]
  have hspec : specSelCandidates [1, 0, 0, 0, 0.9, 0, 0, 0, 0] 3 1 ⟨1, 0, 0⟩
      ⟨0, -1, 0⟩ = [⟨-1, 1, 0⟩, ⟨0, 0, 0⟩] := by
    unfold specSelCandidates
    rw [hmax]
    have hfil : (List.range
        ([1, 0, 0, 0, 0.9, 0, 0, 0, 0] : List ℝ).length).filter
        (fun i => 0.9 * (1 : ℝ) ≤
          ([1, 0, 0, 0, 0.9, 0, 0, 0, 0] : List ℝ).getD i 0) = [0, 4] := by
      norm_num [List.range_succ, List.filter_append]
    rw [hfil]
    simp only [List.map_cons, List.map_nil, hoff0, hoff4]
  have hn1 : Vec3.norm3 ⟨-1, 1, 0⟩ = Real.sqrt 2 := by
    simp only [Vec3.norm3, Vec3.normSq]
    norm_num
  have hn0 : Vec3.norm3 ⟨0, 0, 0⟩ = 0 := by
    simp only [Vec3.norm3, Vec3.normSq]
    norm_num
  have hchoice : specWideChoice [1, 0, 0, 0, 0.9, 0, 0, 0, 0] 3 1 ⟨1, 0, 0⟩
      ⟨0, -1, 0⟩ = ⟨0, 0, 0⟩ := by
    unfold specWideChoice
    rw [hspec]
    simp only [List.map_cons, List.map_nil, hn1, hn0]
    have hmi : flexMinIndex [Real.sqrt 2, 0] = 1 := by
      have h2 : ¬ Real.sqrt 2 ≤ flexMin [0] := by
        simp only [flexMin, List.foldl_nil]
        exact not_le.mpr (Real.sqrt_pos.mpr (by norm_num))
      simp [flexMinIndex, h2]
    rw [hmi]
    rfl
  have hlhs : wideSelect [1, 0, 0, 0, 0.9, 0, 0, 0, 0] 3 1 ⟨1, 0, 0⟩
      ⟨0, -1, 0⟩ = Except.ok ⟨-1, 1, 0⟩ := by
    unfold wideSelect
    rw [if_neg (by push_neg; exact ⟨1, by simp, by norm_num⟩)]
    rw [hsel]
    simp [flexMinIndex]
  rw [hlhs, hchoice]
  intro hEq
  have := Except.ok.inj hEq
  rw [Vec3.mk.injEq] at this
  norm_num at this


/-! ## C8: the offset basis -/

/-- Scalar multiplication of an arbitrary vector, componentwise. -/
theorem Vec3.smul_def (c : ℝ) (v : Vec3) :
    c • v = ⟨c * v.x, c * v.y, c * v.z⟩ := rfl

/-- A cross product is orthogonal to its first factor. -/
theorem cross_dot_self_left (a b : Vec3) : (Vec3.cross a b).dot a = 0 := by
  simp only [Vec3.dot, Vec3.cross]
  ring

/-- A cross product is orthogonal to its second factor. -/
theorem cross_dot_self_right (a b : Vec3) : (Vec3.cross a b).dot b = 0 := by
  simp only [Vec3.dot, Vec3.cross]
  ring

/-- Orthogonality of a vector to a cross product having it as first
factor. -/
theorem dot_cross_self_left (a b : Vec3) : a.dot (Vec3.cross a b) = 0 := by
  simp only [Vec3.dot, Vec3.cross]
  ring

/-- Orthogonality of a vector to a cross product having it as second
factor. -/
theorem dot_cross_self_right (a b : Vec3) : b.dot (Vec3.cross a b) = 0 := by
  simp only [Vec3.dot, Vec3.cross]
  ring

/-- Dot product is linear in a scaled left argument. -/
theorem smul_dot_left (c : ℝ) (v w : Vec3) :
    (c • v).dot w = c * v.dot w := by
  simp only [Vec3.dot, Vec3.smul_def]
  ring

/-- Dot product is linear in a scaled right argument. -/
theorem dot_smul_right (c : ℝ) (v w : Vec3) :
    v.dot (c • w) = c * v.dot w := by
  simp only [Vec3.dot, Vec3.smul_def]
  ring

/-- The squared norm is nonnegative. -/
theorem normSq_nonneg (v : Vec3) : 0 ≤ v.normSq :=
  add_nonneg (add_nonneg (mul_self_nonneg _) (mul_self_nonneg _))
    (mul_self_nonneg _)

/-- The squared norm vanishes exactly on the zero vector. -/
theorem normSq_eq_zero_iff (v : Vec3) : v.normSq = 0 ↔ v = ⟨0, 0, 0⟩ := by
  obtain ⟨x, y, z⟩ := v
  simp only [Vec3.normSq, Vec3.mk.injEq]
  constructor
  · intro h
    have hx : x * x = 0 := le_antisymm
      (by nlinarith [mul_self_nonneg y, mul_self_nonneg z])
      (mul_self_nonneg x)
    have hy : y * y = 0 := le_antisymm
      (by nlinarith [mul_self_nonneg x, mul_self_nonneg z])
      (mul_self_nonneg y)
    have hz : z * z = 0 := le_antisymm
      (by nlinarith [mul_self_nonneg x, mul_self_nonneg y])
      (mul_self_nonneg z)
    exact ⟨mul_self_eq_zero.mp hx, mul_self_eq_zero.mp hy,
      mul_self_eq_zero.mp hz⟩
  · rintro ⟨rfl, rfl, rfl⟩
    ring

/-- The squared norm is the square of the norm. -/
theorem normSq_eq_norm3_sq (v : Vec3) : v.normSq = v.norm3 ^ 2 :=
  (Real.sq_sqrt (normSq_nonneg v)).symm

/-- Norm of a scaled vector. -/
theorem norm3_smul (c : ℝ) (v : Vec3) :
    (c • v).norm3 = |c| * v.norm3 := by
  have h : (c • v).normSq = c ^ 2 * v.normSq := by
    simp only [Vec3.normSq, Vec3.smul_def]
    ring
  rw [Vec3.norm3, h, Real.sqrt_mul (sq_nonneg c), Real.sqrt_sq_eq_abs]
  rfl

/-- A vector with nonzero squared norm has positive norm. -/
theorem norm3_pos (v : Vec3) (h : v.normSq ≠ 0) : 0 < v.norm3 :=
  Real.sqrt_pos.mpr (lt_of_le_of_ne (normSq_nonneg v) (Ne.symm h))

/-- `normalize` produces a unit vector when the input is nonzero. -/
theorem norm3_normalize3 (v : Vec3) (h : v.normSq ≠ 0) :
    v.normalize3.norm3 = 1 := by
  rw [Vec3.normalize3, norm3_smul]
  have hpos : 0 < v.norm3 := norm3_pos v h
  rw [abs_of_pos (by positivity : (0 : ℝ) < 1 / v.norm3)]
  field_simp

/-- Lagrange's identity for the cross product. -/
theorem cross_normSq (a b : Vec3) :
    (Vec3.cross a b).normSq = a.normSq * b.normSq - (a.dot b) ^ 2 := by
  simp only [Vec3.normSq, Vec3.cross, Vec3.dot]
  ring

/-- The first basis vector, unfolded. -/
theorem beamBasis_fst (s0 : Vec3) :
    (beamBasis s0).1 =
      Vec3.normalize3
        (Vec3.cross (Vec3.normalize3 (Vec3.cross s0 ⟨1, 0, 0⟩)) s0) := rfl

/-- The second basis vector, unfolded. -/
theorem beamBasis_snd (s0 : Vec3) :
    (beamBasis s0).2 =
      Vec3.normalize3 (Vec3.cross (beamBasis s0).1 s0) := rfl

/-- Claim C8 (amended): for every beam vector not parallel to the fixed
auxiliary axis `(1, 0, 0)`, the constructed pair `{beamr1, beamr2}` is
exactly orthogonal to `s0` and to each other (so certainly within 1e-6 of
zero) and each of `beamr1`, `beamr2` has norm exactly 1; `s0` itself
keeps its physical length `|s0|`, which is not normalised. -/
theorem claim_C8_amended (s0 : Vec3)
    (h : Vec3.cross s0 ⟨1, 0, 0⟩ ≠ ⟨0, 0, 0⟩) :
    Vec3.dot s0 (beamBasis s0).1 = 0 ∧
    Vec3.dot s0 (beamBasis s0).2 = 0 ∧
    Vec3.dot (beamBasis s0).1 (beamBasis s0).2 = 0 ∧
    Vec3.norm3 (beamBasis s0).1 = 1 ∧
    Vec3.norm3 (beamBasis s0).2 = 1 := by
  have ha : (Vec3.cross s0 ⟨1, 0, 0⟩).normSq ≠ 0 :=
    fun hz => h ((normSq_eq_zero_iff _).mp hz)
  have hs0 : s0.normSq ≠ 0 := by
    intro hz
    rw [(normSq_eq_zero_iff s0).mp hz] at h
    exact h (by simp only [Vec3.cross]; norm_num)
  set r0 := Vec3.normalize3 (Vec3.cross s0 ⟨1, 0, 0⟩) with hr0
  have hr0unit : r0.norm3 = 1 := norm3_normalize3 _ ha
  have hr0sq : r0.normSq = 1 := by
    rw [normSq_eq_norm3_sq, hr0unit]
    norm_num
  have hr0dot : r0.dot s0 = 0 := by
    rw [hr0, Vec3.normalize3, smul_dot_left, cross_dot_self_left, mul_zero]
  have hc1 : (Vec3.cross r0 s0).normSq ≠ 0 := by
    rw [cross_normSq, hr0sq, hr0dot]
    simpa using hs0
  have hb1 : (beamBasis s0).1 = Vec3.normalize3 (Vec3.cross r0 s0) :=
    beamBasis_fst s0
  have hb1unit : Vec3.norm3 (beamBasis s0).1 = 1 := by
    rw [hb1]
    exact norm3_normalize3 _ hc1
  have hd1 : Vec3.dot s0 (beamBasis s0).1 = 0 := by
    rw [hb1, Vec3.normalize3, dot_smul_right, dot_cross_self_right,
      mul_zero]
  have hb1sq : (beamBasis s0).1.normSq = 1 := by
    rw [normSq_eq_norm3_sq, hb1unit]
    norm_num
  have hb1dot : (beamBasis s0).1.dot s0 = 0 := by
    rw [hb1, Vec3.normalize3, smul_dot_left, cross_dot_self_right, mul_zero]
  have hc2 : (Vec3.cross (beamBasis s0).1 s0).normSq ≠ 0 := by
    rw [cross_normSq, hb1sq, hb1dot]
    simpa using hs0
  refine ⟨hd1, ?_, ?_, hb1unit, ?_⟩
  · rw [beamBasis_snd, Vec3.normalize3, dot_smul_right,
      dot_cross_self_right, mul_zero]
  · rw [beamBasis_snd, Vec3.normalize3, dot_smul_right,
      dot_cross_self_left, mul_zero]
  · rw [beamBasis_snd]
    exact norm3_normalize3 _ hc2

/-- Witness for C8: the amended orthogonality and unit-norm facts hold at
the concrete beam vector `(0, 0, 2)`. -/
theorem claim_C8_witness :
    Vec3.dot ⟨0, 0, 2⟩ (beamBasis ⟨0, 0, 2⟩).1 = 0 ∧
    Vec3.dot ⟨0, 0, 2⟩ (beamBasis ⟨0, 0, 2⟩).2 = 0 ∧
    Vec3.dot (beamBasis ⟨0, 0, 2⟩).1 (beamBasis ⟨0, 0, 2⟩).2 = 0 ∧
    Vec3.norm3 (beamBasis ⟨0, 0, 2⟩).1 = 1 ∧
    Vec3.norm3 (beamBasis ⟨0, 0, 2⟩).2 = 1 :=
  claim_C8_amended ⟨0, 0, 2⟩ (by
    simp only [Vec3.cross, ne_eq, Vec3.mk.injEq]
    norm_num)

/-- Counterexample to C8 as stated: at the valid beam vector `(0, 0, 2)`
(a beam of wavelength 0.5), the basis construction succeeds, but the
claimed orthonormality fails because `s0` keeps its physical length 2:
its norm is not within 1e-6 of 1.  (Only `beamr1` and `beamr2` are
normalised; the source comment calls the triple orthonormal but the code
only asserts orthogonality.) -/
theorem claim_C8_counterexample :
    ¬ (|Vec3.norm3 ⟨0, 0, 2⟩ - 1| ≤ 1e-6 ∧
       |Vec3.norm3 (beamBasis ⟨0, 0, 2⟩).1 - 1| ≤ 1e-6 ∧
       |Vec3.norm3 (beamBasis ⟨0, 0, 2⟩).2 - 1| ≤ 1e-6) := by
  intro hcl
  have h4 : Vec3.norm3 ⟨0, 0, 2⟩ = 2 := by
    rw [Vec3.norm3]
    have : Vec3.normSq ⟨0, 0, 2⟩ = 2 ^ 2 := by
      simp only [Vec3.normSq]
      norm_num
    rw [this, Real.sqrt_sq (by norm_num : (0 : ℝ) ≤ 2)]
  rw [h4] at hcl
  have := hcl.1
  norm_num at this


/-! ## C2: effects of scoring one trial offset -/

/-- Claim C2 (amended): evaluating the origin-offset score replaces the
detector only on the private shallow copy, so the caller's experiment
value and its detector are untouched and the allocation counters are
unchanged; but the call is NOT free of side effects: through the shallow
`copy.copy` the goniometer shared with the caller has its fixed rotation
permanently set to the identity, and the reflection table's stored
payload is overwritten in place with centroids remapped under the trial
geometry.  The full effect is exactly these two store updates, and the
returned score is `_sum_score_detail` of the remapped `rlp` column. -/
theorem claim_C2_amended (ext : Ext D P R) (off : Vec3) (sols : List Vec3)
    (amax : ℝ) (tRef : ℕ) (e : Experiment D) (σ : St P) :
    getOriginOffsetScore ext off sols amax tRef e σ =
      (sumScoreDetail ext
         (ext.rlpOf (ext.mapRlp (ext.getNewDetector e.detector off) e.s0 id3
            (σ.tables tRef))) sols amax,
       { σ with
          gonios := Function.update σ.gonios e.gonioRef id3,
          tables := Function.update σ.tables tRef
            (ext.mapRlp (ext.getNewDetector e.detector off) e.s0 id3
              (σ.tables tRef)) }) := by
  simp [getOriginOffsetScore, St.writeGonio, St.writeTable]

/-- Counterexample to C2 as stated: on a concrete input whose goniometer
carries a non-identity fixed rotation, one scoring call observably
changes the caller's experiment: the goniometer reached through the
caller's experiment no longer holds its original fixed rotation (it has
been reset to the identity through the shallow copy). -/
theorem claim_C2_counterexample :
    (getOriginOffsetScore extVecBase 0 [] 0 0 expC2 sigmaC2).2.gonios
        expC2.gonioRef ≠
      sigmaC2.gonios expC2.gonioRef := by
  have hL : (getOriginOffsetScore extVecBase 0 [] 0 0 expC2 sigmaC2).2.gonios
      expC2.gonioRef = id3 := by
    simp [getOriginOffsetScore, St.writeGonio, St.writeTable, expC2]
  have hR : sigmaC2.gonios expC2.gonioRef = gonioA := rfl
  rw [hL, hR]
  simp only [id3, gonioA, ne_eq, Mat3.mk.injEq]
  norm_num


/-! ## Store bookkeeping lemmas -/

/-- One scoring call leaves both allocation counters unchanged and writes
no table other than the one it was given. -/
theorem score_state (ext : Ext D P R) (off : Vec3) (sols : List Vec3)
    (amax : ℝ) (tRef : ℕ) (e : Experiment D) (σ : St P) :
    (getOriginOffsetScore ext off sols amax tRef e σ).2.gonioNext =
        σ.gonioNext ∧
    (getOriginOffsetScore ext off sols amax tRef e σ).2.tableNext =
        σ.tableNext ∧
    ∀ r, r ≠ tRef →
      (getOriginOffsetScore ext off sols amax tRef e σ).2.tables r =
        σ.tables r := by
  refine ⟨rfl, rfl, fun r hr => ?_⟩
  simp only [getOriginOffsetScore, St.writeTable, St.writeGonio]
  exact Function.update_noteq hr _ _

/-- The indexed score accumulation leaves the allocation counters
unchanged and writes no table outside the reference list. -/
theorem sumScoresGo_state (ext : Ext D P R) (tRefs : List ℕ)
    (sols : List (List Vec3)) (amaxs : List ℝ) (off : Vec3) :
    ∀ (l : List (Experiment D)) (i : ℕ) (acc : ℝ) (σ : St P),
      (sumScoresGo ext tRefs sols amaxs off l i acc σ).2.gonioNext =
          σ.gonioNext ∧
      (sumScoresGo ext tRefs sols amaxs off l i acc σ).2.tableNext =
          σ.tableNext ∧
      ∀ r, r ∉ tRefs →
        (sumScoresGo ext tRefs sols amaxs off l i acc σ).2.tables r =
          σ.tables r
  | [], i, acc, σ => by simp [sumScoresGo]
  | e :: rest, i, acc, σ => by
    simp only [sumScoresGo]
    cases hs : sols.get? i with
    | none => simp
    | some sl =>
      cases ha : amaxs.get? i with
      | none => simp
      | some am =>
        cases ht : tRefs.get? i with
        | none => simp
        | some tr =>
          simp only []
          have htr : tr ∈ tRefs := List.get?_mem ht
          have ih := sumScoresGo_state ext tRefs sols amaxs off rest (i + 1)
            (acc + (getOriginOffsetScore ext off sl am tr e σ).1)
            (getOriginOffsetScore ext off sl am tr e σ).2
          have hsc := score_state ext off sl am tr e σ
          refine ⟨ih.1.trans hsc.1, ih.2.1.trans hsc.2.1, fun r hr => ?_⟩
          rw [ih.2.2 r hr, hsc.2.2 r (fun hEq => hr (hEq ▸ htr))]

/-- The aggregate score leaves the allocation counters unchanged and
writes no table outside the reference list. -/
theorem sumScores_state (ext : Ext D P R) (exps : List (Experiment D))
    (tRefs : List ℕ) (sols : List (List Vec3)) (amaxs : List ℝ) (off : Vec3)
    (σ : St P) :
    (sumScores ext exps tRefs sols amaxs off σ).2.gonioNext = σ.gonioNext ∧
    (sumScores ext exps tRefs sols amaxs off σ).2.tableNext = σ.tableNext ∧
    ∀ r, r ∉ tRefs →
      (sumScores ext exps tRefs sols amaxs off σ).2.tables r = σ.tables r :=
  sumScoresGo_state ext tRefs sols amaxs off exps 0 0 σ

/-- The grid evaluation leaves the allocation counters unchanged and
writes no table outside the reference list. -/
theorem gridScoresGo_state (ext : Ext D P R) (exps : List (Experiment D))
    (tRefs : List ℕ) (sols : List (List Vec3)) (amaxs : List ℝ)
    (plotPxSz : ℝ) (beamr1 beamr2 : Vec3) :
    ∀ (coords : List (ℤ × ℤ)) (acc : List ℝ) (σ : St P),
      (gridScoresGo ext exps tRefs sols amaxs plotPxSz beamr1 beamr2 coords
          acc σ).2.gonioNext = σ.gonioNext ∧
      (gridScoresGo ext exps tRefs sols amaxs plotPxSz beamr1 beamr2 coords
          acc σ).2.tableNext = σ.tableNext ∧
      ∀ r, r ∉ tRefs →
        (gridScoresGo ext exps tRefs sols amaxs plotPxSz beamr1 beamr2 coords
            acc σ).2.tables r = σ.tables r
  | [], acc, σ => by simp [gridScoresGo]
  | c :: rest, acc, σ => by
    have hsc : (scoreForCoord ext exps tRefs sols amaxs plotPxSz beamr1
        beamr2 c σ).2.gonioNext = σ.gonioNext ∧
        (scoreForCoord ext exps tRefs sols amaxs plotPxSz beamr1 beamr2 c
          σ).2.tableNext = σ.tableNext ∧
        ∀ r, r ∉ tRefs →
          (scoreForCoord ext exps tRefs sols amaxs plotPxSz beamr1 beamr2 c
            σ).2.tables r = σ.tables r :=
      sumScores_state ext exps tRefs sols amaxs _ σ
    cases hval : scoreForCoord ext exps tRefs sols amaxs plotPxSz beamr1
        beamr2 c σ with
    | mk v σ1 =>
      rw [hval] at hsc
      simp only [gridScoresGo, hval]
      cases v with
      | error e => exact hsc
      | ok sc =>
        have ih := gridScoresGo_state ext exps tRefs sols amaxs plotPxSz
          beamr1 beamr2 rest (acc ++ [sc]) σ1
        exact ⟨ih.1.trans hsc.1, ih.2.1.trans hsc.2.1,
          fun r hr => (ih.2.2 r hr).trans (hsc.2.2 r hr)⟩

/-- One simplex target evaluation leaves the allocation counters unchanged
and writes no table outside the reference list. -/
theorem simplexTarget_state (ext : Ext D P R) (exps : List (Experiment D))
    (tRefs : List ℕ) (sols : List (List Vec3)) (amaxs : List ℝ)
    (beamr1 beamr2 : Vec3) (wide : Option Vec3) (v : ℝ × ℝ) (σ : St P) :
    (simplexTarget ext exps tRefs sols amaxs beamr1 beamr2 wide v
        σ).2.gonioNext = σ.gonioNext ∧
    (simplexTarget ext exps tRefs sols amaxs beamr1 beamr2 wide v
        σ).2.tableNext = σ.tableNext ∧
    ∀ r, r ∉ tRefs →
      (simplexTarget ext exps tRefs sols amaxs beamr1 beamr2 wide v
          σ).2.tables r = σ.tables r :=
  sumScores_state ext exps tRefs sols amaxs _ σ

/-- The whole simplex stage leaves the allocation counters unchanged and
writes no table outside the reference list. -/
theorem simplexStage_state (ext : Ext D P R) (exps : List (Experiment D))
    (tRefs : List ℕ) (sols : List (List Vec3)) (amaxs : List ℝ)
    (beamr1 beamr2 : Vec3) (wide : Option Vec3) :
    ∀ (trace : List (ℝ × ℝ)) (σ : St P),
      (simplexStage ext exps tRefs sols amaxs beamr1 beamr2 wide trace
          σ).2.gonioNext = σ.gonioNext ∧
      (simplexStage ext exps tRefs sols amaxs beamr1 beamr2 wide trace
          σ).2.tableNext = σ.tableNext ∧
      ∀ r, r ∉ tRefs →
        (simplexStage ext exps tRefs sols amaxs beamr1 beamr2 wide trace
            σ).2.tables r = σ.tables r
  | [], σ => by simp [simplexStage]
  | v :: rest, σ => by
    have htg := simplexTarget_state ext exps tRefs sols amaxs beamr1 beamr2
      wide v σ
    cases hval : simplexTarget ext exps tRefs sols amaxs beamr1 beamr2 wide
        v σ with
    | mk res σ1 =>
      rw [hval] at htg
      simp only [simplexStage, hval]
      cases res with
      | error e => exact htg
      | ok sc =>
        have ih := simplexStage_state ext exps tRefs sols amaxs beamr1 beamr2
          wide rest σ1
        exact ⟨ih.1.trans htg.1, ih.2.1.trans htg.2.1,
          fun r hr => (ih.2.2 r hr).trans (htg.2.2 r hr)⟩

/-- The wide stage leaves the allocation counters unchanged and writes no
table outside the reference list. -/
theorem wideStage_state (ext : Ext D P R) (exps : List (Experiment D))
    (tRefs : List ℕ) (sols : List (List Vec3)) (amaxs : List ℝ)
    (mmSearchScope wideSearchBinning : ℝ) (e0 : Experiment D)
    (beamr1 beamr2 : Vec3) (σ : St P) :
    (wideStage ext exps tRefs sols amaxs mmSearchScope wideSearchBinning e0
        beamr1 beamr2 σ).2.gonioNext = σ.gonioNext ∧
    (wideStage ext exps tRefs sols amaxs mmSearchScope wideSearchBinning e0
        beamr1 beamr2 σ).2.tableNext = σ.tableNext ∧
    ∀ r, r ∉ tRefs →
      (wideStage ext exps tRefs sols amaxs mmSearchScope wideSearchBinning e0
          beamr1 beamr2 σ).2.tables r = σ.tables r := by
  unfold wideStage
  by_cases hmm : mmSearchScope = 0
  · simp [hmm]
  · simp only [if_neg hmm]
    set px := ext.pixelSize0 e0.detector * wideSearchBinning with hpx
    set g := (max 1 (Int.floor (mmSearchScope / px))).toNat with hg
    have hgr := gridScoresGo_state ext exps tRefs sols amaxs px beamr1 beamr2
      (gridCoords g) [] σ
    cases hval : gridScoresGo ext exps tRefs sols amaxs px beamr1 beamr2
        (gridCoords g) [] σ with
    | mk res σ1 =>
      have hσ1 : σ1 = (gridScoresGo ext exps tRefs sols amaxs px beamr1
          beamr2 (gridCoords g) [] σ).2 := by rw [hval]
      cases res with
      | error e =>
        simp only []
        exact ⟨by rw [hσ1]; exact hgr.1, by rw [hσ1]; exact hgr.2.1,
          fun r hr => by rw [hσ1]; exact hgr.2.2 r hr⟩
      | ok scores =>
        cases hw : wideSelect scores (2 * g + 1) px beamr1 beamr2 with
        | error e =>
          simp only [hw]
          exact ⟨by rw [hσ1]; exact hgr.1, by rw [hσ1]; exact hgr.2.1,
            fun r hr => by rw [hσ1]; exact hgr.2.2 r hr⟩
        | ok w =>
          simp only [hw]
          exact ⟨by rw [hσ1]; exact hgr.1, by rw [hσ1]; exact hgr.2.1,
            fun r hr => by rw [hσ1]; exact hgr.2.2 r hr⟩

/-- The deep-copy stage: lengths, fresh goniometer references, untouched
tables. -/
theorem applyOffsetGo_length (ext : Ext D P R) (off : Vec3) :
    ∀ (l : List (Experiment D)) (σ : St P),
      (applyOffsetGo ext off l σ).1.length = l.length
  | [], σ => rfl
  | e :: rest, σ => by
    simp only [applyOffsetGo, List.length_cons]
    rw [applyOffsetGo_length ext off rest _]

/-- Element-wise description of the deep-copy stage: each output
experiment keeps its beam, carries a freshly allocated goniometer, and
has its detector shifted by the single shared offset. -/
theorem applyOffsetGo_get? (ext : Ext D P R) (off : Vec3) :
    ∀ (l : List (Experiment D)) (σ : St P) (i : ℕ),
      (applyOffsetGo ext off l σ).1.get? i =
        (l.get? i).map (fun e =>
          ⟨ext.getNewDetector e.detector off, e.s0, σ.gonioNext + i⟩)
  | [], σ, i => by simp [applyOffsetGo]
  | e :: rest, σ, 0 => by simp [applyOffsetGo, St.allocGonio]
  | e :: rest, σ, i + 1 => by
    simp only [applyOffsetGo, List.get?]
    rw [applyOffsetGo_get? ext off rest _ i]
    simp only [St.allocGonio]
    cases rest.get? i with
    | none => rfl
    | some e2 =>
      simp only [Option.map, Option.some.injEq, Experiment.mk.injEq]
      exact ⟨trivial, trivial, by omega⟩

/-- The deep-copy stage does not touch tables and advances the goniometer
counter by the batch size. -/
theorem applyOffsetGo_state (ext : Ext D P R) (off : Vec3) :
    ∀ (l : List (Experiment D)) (σ : St P),
      (applyOffsetGo ext off l σ).2.tables = σ.tables ∧
      (applyOffsetGo ext off l σ).2.tableNext = σ.tableNext
  | [], σ => ⟨rfl, rfl⟩
  | e :: rest, σ => by
    simp only [applyOffsetGo]
    have ih := applyOffsetGo_state ext off rest (σ.allocGonio
      (σ.gonios e.gonioRef)).2
    exact ⟨ih.1, ih.2⟩


/-! ## C9: one shared offset, applied to deep copies -/

/-- Claim C9: whenever the optimizer succeeds, there is a single resolved
3D offset such that every output experiment is the corresponding input
experiment with its detector replaced by `get_new_detector(detector,
offset)` — the same offset for every experiment of the batch, whose basis
and grid spacing were taken from the first experiment — its beam
unchanged, and a freshly allocated goniometer (the deep copy), so the
input experiments and their detectors are retained unchanged for
before/after reporting. -/
theorem claim_C9_shared_offset (ext : Ext D P R) (exps : List (Experiment D))
    (tRefs : List ℕ) (sols : List (List Vec3)) (amaxs : List ℝ)
    (mm wb : ℝ) (σ : St P) (out : List (Experiment D))
    (h : (optimizeOriginOffsetLocalScope ext exps tRefs sols amaxs mm wb
        σ).1 = Except.ok out) :
    ∃ off : Vec3, out.length = exps.length ∧
      ∀ i : ℕ, out.get? i = (exps.get? i).map
        (fun e => ⟨ext.getNewDetector e.detector off, e.s0,
          σ.gonioNext + i⟩) := by
  cases exps with
  | nil => simp [optimizeOriginOffsetLocalScope] at h
  | cons e0 tl =>
    simp only [optimizeOriginOffsetLocalScope] at h
    split at h
    case h_2 => simp at h
    case h_1 wide σ1 heq1 =>
      split at h
      case h_2 => simp at h
      case h_1 off σ2 heq2 =>
        simp only [Except.ok.injEq] at h
        have hwst := wideStage_state ext (e0 :: tl) tRefs sols amaxs mm wb e0
          (beamBasis e0.s0).1 (beamBasis e0.s0).2 σ
        rw [heq1] at hwst
        have hsst := simplexStage_state ext (e0 :: tl) tRefs sols amaxs
          (beamBasis e0.s0).1 (beamBasis e0.s0).2 wide ext.simplexTrace σ1
        rw [heq2] at hsst
        refine ⟨off, ?_, ?_⟩
        · rw [← h]
          exact applyOffsetGo_length ext off (e0 :: tl) σ2
        · intro i
          rw [← h, applyOffsetGo_get? ext off (e0 :: tl) σ2 i]
          have hnext : σ2.gonioNext = σ.gonioNext := hsst.1.trans hwst.1
          rw [hnext]

/-- Witness for C9: a closed successful run (with `mm_search_scope = 0`,
so stage 1 is skipped) on one experiment. -/
theorem claim_C9_witness :
    ∃ out, (optimizeOriginOffsetLocalScope extVecBase [expC9] [0]
        [[⟨1, 0, 0⟩]] [1] 0 1 sigmaC9).1 = Except.ok out ∧
      ∃ off : Vec3, out.length = ([expC9] : List (Experiment Vec3)).length ∧
        ∀ i : ℕ, out.get? i = (([expC9] : List (Experiment Vec3)).get? i).map
          (fun e => ⟨extVecBase.getNewDetector e.detector off, e.s0,
            sigmaC9.gonioNext + i⟩) := by
  have hrun : (optimizeOriginOffsetLocalScope extVecBase [expC9] [0]
      [[⟨1, 0, 0⟩]] [1] 0 1 sigmaC9).1 = Except.ok outC9 := by
    simp [optimizeOriginOffsetLocalScope, wideStage, simplexStage, outC9,
      offC9]
  exact ⟨outC9, hrun,
    claim_C9_shared_offset extVecBase [expC9] [0] [[⟨1, 0, 0⟩]] [1] 0 1
      sigmaC9 outC9 hrun⟩

/-! ## C10: the input reflection tables are never mutated -/

/-- Per-experiment preprocessing only grows the table counter. -/
theorem preprocessOne_next (ext : Ext D P R) (params : Params)
    (e : Experiment D) (t : ℕ) (σ : St P) :
    σ.tableNext ≤ (preprocessOne ext params e t σ).2.2.tableNext := by
  rcases params with ⟨mc, mr, dm⟩
  rcases dm with _ | dmv <;> rcases mr with _ | cap <;> rcases mc with _ | mcv <;>
    simp only [preprocessOne, St.allocTable, St.writeTable] <;>
    (try split) <;> (try simp) <;> omega

/-- Per-experiment preprocessing hands back a freshly allocated table
reference. -/
theorem preprocessOne_ref (ext : Ext D P R) (params : Params)
    (e : Experiment D) (t : ℕ) (σ : St P) :
    σ.tableNext ≤ (preprocessOne ext params e t σ).1 := by
  rcases params with ⟨mc, mr, dm⟩
  rcases dm with _ | dmv <;> rcases mr with _ | cap <;> rcases mc with _ | mcv <;>
    simp only [preprocessOne, St.allocTable, St.writeTable] <;>
    (try split) <;> (try simp) <;> omega

/-- Per-experiment preprocessing leaves every previously allocated table
slot unchanged (it works on the deep copy). -/
theorem preprocessOne_tables (ext : Ext D P R) (params : Params)
    (e : Experiment D) (t : ℕ) (σ : St P) (r : ℕ) (hr : r < σ.tableNext) :
    (preprocessOne ext params e t σ).2.2.tables r = σ.tables r := by
  have h0 : r ≠ σ.tableNext := by omega
  have h1 : r ≠ σ.tableNext + 1 := by omega
  have h2 : r ≠ σ.tableNext + 1 + 1 := by omega
  rcases params with ⟨mc, mr, dm⟩
  rcases dm with _ | dmv <;> rcases mr with _ | cap <;> rcases mc with _ | mcv <;>
    simp only [preprocessOne, St.allocTable, St.writeTable] <;>
    (try split) <;>
    simp [Function.update_noteq h0, Function.update_noteq h1,
      Function.update_noteq h2]


/-- The preprocessing loop leaves previously allocated table slots
unchanged and emits only fresh references. -/
theorem preprocessGo_state (ext : Ext D P R) (params : Params) :
    ∀ (l : List (Experiment D × ℕ)) (refAcc : List ℕ) (mcAcc : List ℝ)
      (σ : St P),
      σ.tableNext ≤ (preprocessGo ext params l refAcc mcAcc σ).2.tableNext ∧
      (∀ r, r < σ.tableNext →
        (preprocessGo ext params l refAcc mcAcc σ).2.tables r = σ.tables r) ∧
      (∀ c ∈ (preprocessGo ext params l refAcc mcAcc σ).1.1,
        c ∈ refAcc ∨ σ.tableNext ≤ c)
  | [], refAcc, mcAcc, σ => by
    refine ⟨le_refl _, fun r _ => rfl, fun c hc => Or.inl ?_⟩
    simpa [preprocessGo] using hc
  | (e, t) :: rest, refAcc, mcAcc, σ => by
    simp only [preprocessGo]
    have hnext := preprocessOne_next ext params e t σ
    have href := preprocessOne_ref ext params e t σ
    have ih := preprocessGo_state ext params rest
      (refAcc ++ [(preprocessOne ext params e t σ).1])
      (mcAcc ++ (match (preprocessOne ext params e t σ).2.1 with
        | some m => [m]
        | none => [])) (preprocessOne ext params e t σ).2.2
    refine ⟨le_trans hnext ih.1, fun r hr => ?_, fun c hc => ?_⟩
    · rw [ih.2.1 r (lt_of_lt_of_le hr hnext)]
      exact preprocessOne_tables ext params e t σ r hr
    · rcases ih.2.2 c hc with hmem | hge
      · rcases List.mem_append.mp hmem with hmem2 | hmem2
        · exact Or.inl hmem2
        · rw [List.mem_singleton] at hmem2
          exact Or.inr (hmem2 ▸ href)
      · exact Or.inr (le_trans hnext hge)

/-- The optimizer writes no table outside the reference list it is
given. -/
theorem optimize_tables_outside (ext : Ext D P R) (exps : List (Experiment D))
    (tRefs : List ℕ) (sols : List (List Vec3)) (amaxs : List ℝ)
    (mm wb : ℝ) (σ : St P) (r : ℕ) (hr : r ∉ tRefs) :
    (optimizeOriginOffsetLocalScope ext exps tRefs sols amaxs mm wb
        σ).2.tables r = σ.tables r := by
  cases exps with
  | nil => rfl
  | cons e0 tl =>
    simp only [optimizeOriginOffsetLocalScope]
    split
    case h_1 wide σ1 heq1 =>
      have hwst := wideStage_state ext (e0 :: tl) tRefs sols amaxs mm wb e0
        (beamBasis e0.s0).1 (beamBasis e0.s0).2 σ
      rw [heq1] at hwst
      split
      case h_1 off σ2 heq2 =>
        have hsst := simplexStage_state ext (e0 :: tl) tRefs sols amaxs
          (beamBasis e0.s0).1 (beamBasis e0.s0).2 wide ext.simplexTrace σ1
        rw [heq2] at hsst
        have happ := applyOffsetGo_state ext off (e0 :: tl) σ2
        simp only []
        rw [congrFun happ.1 r]
        rw [hsst.2.2 r hr]
        exact hwst.2.2 r hr
      case h_2 e σ2 heq2 =>
        have hsst := simplexStage_state ext (e0 :: tl) tRefs sols amaxs
          (beamBasis e0.s0).1 (beamBasis e0.s0).2 wide ext.simplexTrace σ1
        rw [heq2] at hsst
        rw [hsst.2.2 r hr]
        exact hwst.2.2 r hr
    case h_2 e σ1 heq1 =>
      have hwst := wideStage_state ext (e0 :: tl) tRefs sols amaxs mm wb e0
        (beamBasis e0.s0).1 (beamBasis e0.s0).2 σ
      rw [heq1] at hwst
      exact hwst.2.2 r hr

/-- Claim C10: a full run of `discover_better_experimental_model` never
mutates the reflection tables passed to it: every table slot allocated
before the call — in particular each input table — holds exactly the same
payload after the run, because the run deep-copies each table before mm
conversion, d_min filtering and subsampling, and all later writes go to
the copies. -/
theorem claim_C10_tables_preserved (ext : Ext D P R)
    (exps : List (Experiment D)) (tRefs : List ℕ) (params : Params)
    (mm wb : ℝ) (σ : St P) (r : ℕ) (hr : r < σ.tableNext) :
    ((discoverBetterExperimentalModel ext exps tRefs params mm wb
        σ).2).tables r = σ.tables r := by
  simp only [discoverBetterExperimentalModel]
  split
  · split
    · rfl
    · rename_i e0 tl hcond
      split
      · have hpre := preprocessGo_state ext params ((e0 :: tl).zip tRefs)
          [] [] σ
        split
        · exact hpre.2.1 r hr
        · have hout : r ∉ (preprocessGo ext params ((e0 :: tl).zip tRefs)
              [] [] σ).1.1 := by
            intro hin
            rcases hpre.2.2 r hin with habs | hge
            · simp at habs
            · omega
          rw [optimize_tables_outside ext (e0 :: tl) _ _ _ mm wb _ r hout]
          exact hpre.2.1 r hr
      · rfl
  · rfl

/-- Witness for C10: a closed run on one experiment leaves the input
table slot untouched. -/
theorem claim_C10_witness :
    0 < sigmaC9.tableNext ∧
    ((discoverBetterExperimentalModel extVecBase [expC9] [0]
        ⟨some 1, none, none⟩ 4 1 sigmaC9).2).tables 0 = sigmaC9.tables 0 :=
  ⟨by simp [sigmaC9],
   claim_C10_tables_preserved extVecBase [expC9] [0] ⟨some 1, none, none⟩
     4 1 sigmaC9 0 (by simp [sigmaC9])⟩


/-! ## C1: per-experiment solution shortfalls crash the optimizer -/

/-- Claim C1 fails on the code: with two experiments of which only the
second yields at least 3 direction solutions, the run does not exclude
the short experiment and complete; `discover_better_experimental_model`
passes the full experiment and reflection lists but the filtered solution
and amax lists to the optimizer, whose per-experiment loop indexes
`solution_lists[i]` for every experiment index and therefore raises
`IndexError` at the very first grid point (after having paired experiment
0 with experiment 1's solutions). -/
theorem claim_C1_code_bug :
    (discoverBetterExperimentalModel extC1 [expC1a, expC1b] [0, 1] paramsC1
        4 1 sigmaC1).1 = Except.error Err.indexError := by
  norm_num [discoverBetterExperimentalModel, preprocessGo, preprocessOne,
    paramsC1, St.allocTable, St.writeTable, runDps, extC1, extVecBase,
    expC1a, expC1b, sigmaC1, collectResults, optimizeOriginOffsetLocalScope,
    wideStage, gridScoresGo, gridCoords, scoreForCoord, sumScores,
    sumScoresGo, getOriginOffsetScore, Function.update]

/-! ## C7: stage-2 refinement against stage-1 grid scores -/

/-- The aggregate score of the peaked scenario at the peak offset. -/
theorem scoreC7_target (σ : St Vec3) :
    (sumScores extC7 [expC7] [0] [solsC7] [1] ⟨4, 0, 0⟩ σ).1 =
      Except.ok 3 := by
  have h40 : (0 : Vec3) + ⟨4, 0, 0⟩ = ⟨4, 0, 0⟩ := by
    simp [Vec3.zero_mk, Vec3.add_mk]
  norm_num [sumScores, sumScoresGo, getOriginOffsetScore, extC7, extVecBase,
    expC7, solsC7, sumScoreDetail, h40, List.range_succ]

/-- The aggregate score of the peaked scenario away from the peak. -/
theorem scoreC7_other (off : Vec3) (hoff : off ≠ ⟨4, 0, 0⟩) (σ : St Vec3) :
    (sumScores extC7 [expC7] [0] [solsC7] [1] off σ).1 = Except.ok 0 := by
  have hz : (0 : Vec3) + off = off := by
    cases off
    simp [Vec3.zero_mk, Vec3.add_mk]
  norm_num [sumScores, sumScoresGo, getOriginOffsetScore, extC7, extVecBase,
    expC7, solsC7, sumScoreDetail, hz, hoff, List.range_succ]

/-- The offset basis built from the beam `(0, 0, 1)`. -/
theorem beamBasis_z1 : beamBasis ⟨0, 0, 1⟩ = (⟨1, 0, 0⟩, ⟨0, -1, 0⟩) := by
  norm_num [beamBasis, Vec3.normalize3, Vec3.norm3, Vec3.normSq, Vec3.cross,
    Vec3.smul_def, Real.sqrt_one, Prod.ext_iff, Vec3.mk.injEq]

/-- The grid evaluation of the peaked scenario, coordinate by
coordinate. -/
theorem gridC7_fold :
    ∀ (coords : List (ℤ × ℤ)) (acc : List ℝ) (σ : St Vec3),
      (gridScoresGo extC7 [expC7] [0] [solsC7] [1] 4 ⟨1, 0, 0⟩ ⟨0, -1, 0⟩
          coords acc σ).1 =
        Except.ok (acc ++ coords.map (fun c =>
          if c = ((1 : ℤ), (0 : ℤ)) then (3 : ℝ) else 0))
  | [], acc, σ => by simp [gridScoresGo]
  | (x, y) :: rest, acc, σ => by
    by_cases hc : ((x, y) : ℤ × ℤ) = (1, 0)
    · obtain ⟨hx, hy⟩ := Prod.mk.injEq .. ▸ hc
      subst hx
      subst hy
      have hoff : (((1 : ℤ) : ℝ) * 4) • (⟨1, 0, 0⟩ : Vec3) +
          (((0 : ℤ) : ℝ) * 4) • (⟨0, -1, 0⟩ : Vec3) = ⟨4, 0, 0⟩ := by
        norm_num [Vec3.smul_def, Vec3.add_mk]
      cases hval : scoreForCoord extC7 [expC7] [0] [solsC7] [1] 4 ⟨1, 0, 0⟩
          ⟨0, -1, 0⟩ (1, 0) σ with
      | mk v σ1 =>
        have hv : v = Except.ok 3 := by
          have h1 : (scoreForCoord extC7 [expC7] [0] [solsC7] [1] 4
              ⟨1, 0, 0⟩ ⟨0, -1, 0⟩ (1, 0) σ).1 = Except.ok 3 := by
            simp only [scoreForCoord]
            rw [hoff]
            exact scoreC7_target σ
          rw [hval] at h1
          exact h1
        subst hv
        simp only [gridScoresGo, hval]
        rw [gridC7_fold rest (acc ++ [3]) σ1]
        simp
    · have hoffne : (((x : ℤ) : ℝ) * 4) • (⟨1, 0, 0⟩ : Vec3) +
          (((y : ℤ) : ℝ) * 4) • (⟨0, -1, 0⟩ : Vec3) ≠ ⟨4, 0, 0⟩ := by
        intro hEq
        apply hc
        rw [Vec3.smul_def, Vec3.smul_def, Vec3.add_mk, Vec3.mk.injEq] at hEq
        obtain ⟨h1, h2, h3⟩ := hEq
        norm_num at h1 h2
        have hx : x = 1 := by exact_mod_cast h1
        have hy : y = 0 := by exact_mod_cast h2
        rw [hx, hy]
      cases hval : scoreForCoord extC7 [expC7] [0] [solsC7] [1] 4 ⟨1, 0, 0⟩
          ⟨0, -1, 0⟩ (x, y) σ with
      | mk v σ1 =>
        have hv : v = Except.ok 0 := by
          have h1 : (scoreForCoord extC7 [expC7] [0] [solsC7] [1] 4
              ⟨1, 0, 0⟩ ⟨0, -1, 0⟩ (x, y) σ).1 = Except.ok 0 := by
            simp only [scoreForCoord]
            exact scoreC7_other _ hoffne σ
          rw [hval] at h1
          exact h1
        subst hv
        simp only [gridScoresGo, hval]
        rw [gridC7_fold rest (acc ++ [0]) σ1]
        simp [hc]

/-- The nine grid scores of the peaked scenario. -/
theorem gridScoresC7 (σ : St Vec3) :
    (gridScoresGo extC7 [expC7] [0] [solsC7] [1] 4 ⟨1, 0, 0⟩ ⟨0, -1, 0⟩
        (gridCoords 1) [] σ).1 = Except.ok scoresC7 := by
  rw [gridC7_fold (gridCoords 1) [] σ]
  have hcoords : gridCoords 1 = [(-1, -1), (0, -1), (1, -1), (-1, 0),
      (0, 0), (1, 0), (-1, 1), (0, 1), (1, 1)] := by decide
  rw [hcoords]
  norm_num [scoresC7, Prod.ext_iff]

/-- Stage 1 of the peaked scenario selects the peak offset. -/
theorem wideSelectC7 :
    wideSelect scoresC7 3 4 ⟨1, 0, 0⟩ ⟨0, -1, 0⟩ = Except.ok ⟨4, 0, 0⟩ := by
  have hmax : flexMax scoresC7 = 3 := by norm_num [flexMax, scoresC7]
  have hoff5 : offsetOfIndex 3 4 ⟨1, 0, 0⟩ ⟨0, -1, 0⟩ 5 = ⟨4, 0, 0⟩ := by
    simp only [offsetOfIndex, gridIdx]
    norm_num [Vec3.smul_mk, Vec3.add_mk]
  have hsel : selCandidates scoresC7 3 4 ⟨1, 0, 0⟩ ⟨0, -1, 0⟩ =
      [⟨4, 0, 0⟩] := by
    unfold selCandidates
    rw [hmax]
    have hfil : (List.range (scoresC7 : List ℝ).length).filter
        (fun i => 0.9 * (3 : ℝ) < (scoresC7 : List ℝ).getD i 0) = [5] := by
      norm_num [scoresC7, List.range_succ, List.filter_append]
    rw [hfil, List.map_singleton, hoff5]
  unfold wideSelect
  rw [if_neg (by
    push_neg
    exact ⟨3, by norm_num [scoresC7], by norm_num⟩)]
  rw [hsel]
  simp [flexMinIndex]

/-- Stage 2 of the peaked scenario: the simplex box returns the
displacement `(1, 1)`, mapped through the basis on top of the stage-1
offset. -/
theorem simplexStageC7 (σ : St Vec3) :
    simplexStage extC7 [expC7] [0] [solsC7] [1] ⟨1, 0, 0⟩ ⟨0, -1, 0⟩
        (some ⟨4, 0, 0⟩) extC7.simplexTrace σ =
      (Except.ok ⟨4.2, -0.2, 0⟩, σ) := by
  have htr : extC7.simplexTrace = [] := rfl
  rw [htr]
  simp only [simplexStage]
  have hsol : extC7.simplexSol = (1, 1) := rfl
  rw [hsol]
  norm_num [Vec3.smul_def, Vec3.add_mk, Vec3.mk.injEq]

/-- The simplex stage, when it succeeds, returns exactly the simplex
solution scaled by 0.2 through the basis, added to the stage-1 offset
when one is present. -/
theorem simplexStage_ok_offset (ext : Ext D P R) (exps : List (Experiment D))
    (tRefs : List ℕ) (sols : List (List Vec3)) (amaxs : List ℝ)
    (beamr1 beamr2 : Vec3) (wide : Option Vec3) :
    ∀ (trace : List (ℝ × ℝ)) (σ σ1 : St P) (off : Vec3),
      simplexStage ext exps tRefs sols amaxs beamr1 beamr2 wide trace σ =
          (Except.ok off, σ1) →
      off = (match wide with
        | some w => (ext.simplexSol.1 * 0.2) • beamr1 +
            (ext.simplexSol.2 * 0.2) • beamr2 + w
        | none => (ext.simplexSol.1 * 0.2) • beamr1 +
            (ext.simplexSol.2 * 0.2) • beamr2)
  | [], σ, σ1, off => by
    intro h
    simp only [simplexStage, Prod.mk.injEq, Except.ok.injEq] at h
    exact h.1.symm
  | v :: rest, σ, σ1, off => by
    intro h
    simp only [simplexStage] at h
    split at h
    case h_1 sc σ2 heq =>
      exact simplexStage_ok_offset ext exps tRefs sols amaxs beamr1 beamr2
        wide rest σ2 σ1 off h
    case h_2 e σ2 heq => simp at h

/-- Claim C7 (amended): the stage-2 offset is the simplex displacement
mapped through the offset basis on top of the stage-1 offset, and the
aggregate score there is at least the best grid score ONLY under the
additional hypothesis that the simplex minimizer achieved a target value
no greater than the negated best grid score; the code itself does not
enforce that hypothesis. -/
theorem claim_C7_amended (ext : Ext D P R) (exps : List (Experiment D))
    (tRefs : List ℕ) (sols : List (List Vec3)) (amaxs : List ℝ)
    (beamr1 beamr2 : Vec3) (w : Vec3) (σ σ1 : St P) (off : Vec3) (m s : ℝ)
    (hrun : simplexStage ext exps tRefs sols amaxs beamr1 beamr2 (some w)
        ext.simplexTrace σ = (Except.ok off, σ1))
    (_hval : (sumScores ext exps tRefs sols amaxs off σ1).1 = Except.ok s)
    (htgt : -s ≤ -m) :
    off = (ext.simplexSol.1 * 0.2) • beamr1 +
        (ext.simplexSol.2 * 0.2) • beamr2 + w ∧
    m ≤ s := by
  refine ⟨?_, by linarith⟩
  have := simplexStage_ok_offset ext exps tRefs sols amaxs beamr1 beamr2
    (some w) ext.simplexTrace σ σ1 off hrun
  simpa using this

/-- Witness for C7: the amended statement at the peaked scenario, with
the trivial bound of zero. -/
theorem claim_C7_witness :
    simplexStage extC7 [expC7] [0] [solsC7] [1] ⟨1, 0, 0⟩ ⟨0, -1, 0⟩
        (some ⟨4, 0, 0⟩) extC7.simplexTrace sigmaC7 =
      (Except.ok ⟨4.2, -0.2, 0⟩, sigmaC7) ∧
    (sumScores extC7 [expC7] [0] [solsC7] [1] ⟨4.2, -0.2, 0⟩ sigmaC7).1 =
      Except.ok 0 ∧
    ((⟨4.2, -0.2, 0⟩ : Vec3) = (extC7.simplexSol.1 * 0.2) • (⟨1, 0, 0⟩ : Vec3) +
        (extC7.simplexSol.2 * 0.2) • (⟨0, -1, 0⟩ : Vec3) + ⟨4, 0, 0⟩ ∧
      (0 : ℝ) ≤ 0) := by
  have hrun := simplexStageC7 sigmaC7
  have hval : (sumScores extC7 [expC7] [0] [solsC7] [1] ⟨4.2, -0.2, 0⟩
      sigmaC7).1 = Except.ok 0 :=
    scoreC7_other ⟨4.2, -0.2, 0⟩
      (by
        rw [ne_eq, Vec3.mk.injEq]
        norm_num) sigmaC7
  exact ⟨hrun, hval,
    claim_C7_amended extC7 [expC7] [0] [solsC7] [1] ⟨1, 0, 0⟩ ⟨0, -1, 0⟩
      ⟨4, 0, 0⟩ sigmaC7 sigmaC7 ⟨4.2, -0.2, 0⟩ 0 0 hrun hval (by norm_num)⟩

/-- Counterexample to C7 as stated: in the peaked scenario the stage-1
grid search finds the best grid point `(4, 0, 0)` with aggregate score 3,
but the simplex black box walks away from it and stage 2 produces the
final offset `(4.2, -0.2, 0)` whose aggregate score is 0 < 3: stage 2
decreased the aggregate score relative to the best stage-1 grid point. -/
theorem claim_C7_counterexample :
    (gridScoresGo extC7 [expC7] [0] [solsC7] [1] 4 (beamBasis expC7.s0).1
        (beamBasis expC7.s0).2 (gridCoords 1) [] sigmaC7).1 =
      Except.ok scoresC7 ∧
    flexMax scoresC7 = 3 ∧
    wideSelect scoresC7 3 4 (beamBasis expC7.s0).1 (beamBasis expC7.s0).2 =
      Except.ok ⟨4, 0, 0⟩ ∧
    (sumScores extC7 [expC7] [0] [solsC7] [1] ⟨4, 0, 0⟩ sigmaC7).1 =
      Except.ok 3 ∧
    (simplexStage extC7 [expC7] [0] [solsC7] [1] (beamBasis expC7.s0).1
        (beamBasis expC7.s0).2 (some ⟨4, 0, 0⟩) extC7.simplexTrace
        sigmaC7).1 = Except.ok ⟨4.2, -0.2, 0⟩ ∧
    (sumScores extC7 [expC7] [0] [solsC7] [1] ⟨4.2, -0.2, 0⟩ sigmaC7).1 =
      Except.ok 0 ∧
    (0 : ℝ) < 3 := by
  have hb : beamBasis expC7.s0 = (⟨1, 0, 0⟩, ⟨0, -1, 0⟩) := beamBasis_z1
  rw [hb]
  refine ⟨gridScoresC7 sigmaC7, by norm_num [flexMax, scoresC7],
    wideSelectC7, scoreC7_target sigmaC7, ?_, ?_, by norm_num⟩
  · rw [simplexStageC7 sigmaC7]
  · exact scoreC7_other ⟨4.2, -0.2, 0⟩
      (by
        rw [ne_eq, Vec3.mk.injEq]
        norm_num) sigmaC7

end SearchBeamPosition
